import Mathlib

/-!
# Verification of the generated IDL socket runtime (`typetestservice_socket.hpp`)

Shallow embedding of the wire runtime of the `TypeTestService` module:
the `ByteBuffer` writer, the `ByteReader` bounded reader, the generated
per-type `serialize`/`deserialize` pairs, the stream framing used by the
client call path and the server handlers, the client listener routing and
the server broadcast fan-out.

Conventions of the embedding:
* a byte is a `Nat` (always `< 256` for bytes produced by the writer);
* C++ unsigned integers are `Nat`, signed integers are `Int`; conversions
  such as `static_cast<uint32_t>` are explicit `% 2^w` / `Int.emod`;
* `float`/`double` fields are represented by their IEEE-754 bit patterns
  (the code serializes exactly those bits via `memcpy`);
* a C++ `std::string` is its byte content, a `List Nat`;
* the writer (`ByteBuffer` methods) is modelled by functions returning the
  bytes a call appends; a record's `serialize` is the concatenation;
* `ByteReader` is a byte slice plus cursor; a read returns
  `Option value × ByteReader` — `none` models the C++
  `std::runtime_error("Buffer underflow")` throw, and the returned reader
  carries the cursor exactly as the C++ object leaves `pos_` (mutations
  made before the throw persist).
-/

namespace ipc

/-- Two to the power 32, the modulus of `uint32_t`. -/
def two32 : Nat := 4294967296

/-- Two to the power 31. -/
def two31 : Nat := 2147483648

/-! ## ByteBuffer (writer) — each `writeX` gives the bytes the C++ method appends -/

/-- `ByteBuffer::writeUint32`: pushes the four big-endian bytes
`(v>>24)&0xFF, (v>>16)&0xFF, (v>>8)&0xFF, v&0xFF`. -/
def writeUint32 (v : Nat) : List Nat :=
  [(v >>> 24) &&& 255, (v >>> 16) &&& 255, (v >>> 8) &&& 255, v &&& 255]

/-- `ByteBuffer::writeInt32`: `writeUint32(static_cast<uint32_t>(value))`. -/
def writeInt32 (v : Int) : List Nat :=
  writeUint32 (v % (two32 : Int)).toNat

/-- `ByteBuffer::writeUint64`: high 32-bit half first, then the low half. -/
def writeUint64 (v : Nat) : List Nat :=
  writeUint32 (v >>> 32) ++ writeUint32 (v &&& (two32 - 1))

/-- `ByteBuffer::writeInt64`: `writeUint64(static_cast<uint64_t>(value))`. -/
def writeInt64 (v : Int) : List Nat :=
  writeUint64 (v % ((4294967296 * 4294967296 : Nat) : Int)).toNat

/-- `ByteBuffer::writeUint16`: two big-endian bytes. -/
def writeUint16 (v : Nat) : List Nat :=
  [(v >>> 8) &&& 255, v &&& 255]

/-- `ByteBuffer::writeInt16`: `writeUint16(static_cast<uint16_t>(value))`. -/
def writeInt16 (v : Int) : List Nat :=
  writeUint16 (v % (65536 : Int)).toNat

/-- `ByteBuffer::writeUint8`: one byte (the `uint8_t` argument value). -/
def writeUint8 (v : Nat) : List Nat := [v % 256]

/-- `ByteBuffer::writeInt8`: `static_cast<uint8_t>(value)`, one byte. -/
def writeInt8 (v : Int) : List Nat := [(v % (256 : Int)).toNat]

/-- `ByteBuffer::writeChar`: `static_cast<uint8_t>(value)`, one byte.
`char` is signed on the reference platform, so the value is an `Int`. -/
def writeChar (v : Int) : List Nat := [(v % (256 : Int)).toNat]

/-- `ByteBuffer::writeBool`: one byte, `1` for true and `0` for false. -/
def writeBool (v : Bool) : List Nat := [if v then 1 else 0]

/-- `ByteBuffer::writeDouble`: the 64-bit IEEE-754 pattern, high half first.
The field is represented by its bit pattern `bits < 2^64`. -/
def writeDouble (bits : Nat) : List Nat :=
  writeUint32 (bits >>> 32) ++ writeUint32 (bits &&& (two32 - 1))

/-- `ByteBuffer::writeFloat`: the 32-bit IEEE-754 pattern. -/
def writeFloat (bits : Nat) : List Nat := writeUint32 bits

/-- `ByteBuffer::writeString`: `uint32` byte length, then the raw bytes. -/
def writeString (s : List Nat) : List Nat :=
  writeUint32 (s.length % two32) ++ s

/-- `ByteBuffer::writeStringVector`: `uint32` count, then each string. -/
def writeStringVector (v : List (List Nat)) : List Nat :=
  writeUint32 (v.length % two32) ++ (v.map writeString).flatten

/-! ## ByteReader -/

/-- `ByteReader`: an immutable byte slice `data_` with a cursor `pos_`. -/
structure ByteReader where
  data : List Nat
  pos : Nat
  deriving Repr, DecidableEq

/-- `ByteReader::canRead`: `pos_ + bytes <= size_`. -/
def canRead (r : ByteReader) (bytes : Nat) : Bool :=
  r.pos + bytes ≤ r.data.length

/-- `data_[i]` (always used in bounds in the source; out of bounds gives 0). -/
def byteAt (r : ByteReader) (i : Nat) : Nat := r.data.getD i 0

/-- `ByteReader::readUint32`: underflow check, then four big-endian bytes. -/
def readUint32 (r : ByteReader) : Option Nat × ByteReader :=
  if canRead r 4 then
    (some ((byteAt r r.pos <<< 24) ||| (byteAt r (r.pos+1) <<< 16) |||
           (byteAt r (r.pos+2) <<< 8) ||| byteAt r (r.pos+3)),
     { r with pos := r.pos + 4 })
  else (none, r)

/-- `static_cast<int32_t>` of a `uint32_t` value (two's complement). -/
def toSigned32 (u : Nat) : Int :=
  if u < two31 then (u : Int) else (u : Int) - (two32 : Int)

/-- `static_cast<int8_t>` of a `uint8_t` value. -/
def toSigned8 (u : Nat) : Int :=
  if u < 128 then (u : Int) else (u : Int) - 256

/-- `static_cast<int16_t>` of a `uint16_t` value. -/
def toSigned16 (u : Nat) : Int :=
  if u < 32768 then (u : Int) else (u : Int) - 65536

/-- `static_cast<int64_t>` of a `uint64_t` value. -/
def toSigned64 (u : Nat) : Int :=
  if u < 4294967296 * 2147483648 then (u : Int)
  else (u : Int) - (4294967296 * 4294967296 : Nat)

/-- `ByteReader::readInt32`. -/
def readInt32 (r : ByteReader) : Option Int × ByteReader :=
  match readUint32 r with
  | (some u, r') => (some (toSigned32 u), r')
  | (none, r') => (none, r')

/-- `ByteReader::readUint64`: two `readUint32` calls, high half first. -/
def readUint64 (r : ByteReader) : Option Nat × ByteReader :=
  match readUint32 r with
  | (none, r') => (none, r')
  | (some high, r') =>
    match readUint32 r' with
    | (none, r'') => (none, r'')
    | (some low, r'') => (some ((high <<< 32) ||| low), r'')

/-- `ByteReader::readInt64`. -/
def readInt64 (r : ByteReader) : Option Int × ByteReader :=
  match readUint64 r with
  | (some u, r') => (some (toSigned64 u), r')
  | (none, r') => (none, r')

/-- `ByteReader::readUint16`. -/
def readUint16 (r : ByteReader) : Option Nat × ByteReader :=
  if canRead r 2 then
    (some ((byteAt r r.pos <<< 8) ||| byteAt r (r.pos+1)),
     { r with pos := r.pos + 2 })
  else (none, r)

/-- `ByteReader::readInt16`. -/
def readInt16 (r : ByteReader) : Option Int × ByteReader :=
  match readUint16 r with
  | (some u, r') => (some (toSigned16 u), r')
  | (none, r') => (none, r')

/-- `ByteReader::readUint8`. -/
def readUint8 (r : ByteReader) : Option Nat × ByteReader :=
  if canRead r 1 then (some (byteAt r r.pos), { r with pos := r.pos + 1 })
  else (none, r)

/-- `ByteReader::readInt8`. -/
def readInt8 (r : ByteReader) : Option Int × ByteReader :=
  match readUint8 r with
  | (some u, r') => (some (toSigned8 u), r')
  | (none, r') => (none, r')

/-- `ByteReader::readChar`: one byte, `static_cast<char>` (signed char). -/
def readChar (r : ByteReader) : Option Int × ByteReader :=
  match readUint8 r with
  | (some u, r') => (some (toSigned8 u), r')
  | (none, r') => (none, r')

/-- `ByteReader::readBool`: one byte, nonzero decodes to `true`. -/
def readBool (r : ByteReader) : Option Bool × ByteReader :=
  if canRead r 1 then (some (byteAt r r.pos ≠ 0), { r with pos := r.pos + 1 })
  else (none, r)

/-- `ByteReader::readDouble`: two `readUint32`, bit pattern `high<<32 | low`. -/
def readDouble (r : ByteReader) : Option Nat × ByteReader :=
  match readUint32 r with
  | (none, r') => (none, r')
  | (some high, r') =>
    match readUint32 r' with
    | (none, r'') => (none, r'')
    | (some low, r'') => (some ((high <<< 32) ||| low), r'')

/-- `ByteReader::readFloat`: one `readUint32` bit pattern. -/
def readFloat (r : ByteReader) : Option Nat × ByteReader := readUint32 r

/-- `ByteReader::readString`: a `uint32` length, validated against the
remaining slice, then that many bytes taken verbatim. -/
def readString (r : ByteReader) : Option (List Nat) × ByteReader :=
  match readUint32 r with
  | (none, r') => (none, r')
  | (some len, r') =>
    if canRead r' len then
      (some ((r'.data.drop r'.pos).take len), { r' with pos := r'.pos + len })
    else (none, r')

/-! ## Reader-composition infrastructure for round-trip proofs -/

/-- Sequencing of reads, as the generated `deserialize` bodies do: a thrown
`Buffer underflow` aborts the remaining reads, keeping the cursor where the
failing read left it. -/
def rbind {α β : Type} (m : ByteReader → Option α × ByteReader)
    (f : α → ByteReader → Option β × ByteReader) :
    ByteReader → Option β × ByteReader := fun r =>
  match m r with
  | (some a, r') => f a r'
  | (none, r') => (none, r')

/-- A deserializer that consumes nothing and yields the assembled value. -/
def rpure {α : Type} (a : α) : ByteReader → Option α × ByteReader :=
  fun r => (some a, r)

/-- `rd` recognizes exactly the byte block `bytes` as the value `x`, at any
position in a larger slice, consuming exactly `bytes.length` bytes. -/
def ReadsAs {α : Type} (rd : ByteReader → Option α × ByteReader)
    (bytes : List Nat) (x : α) : Prop :=
  ∀ pre rest, rd ⟨pre ++ bytes ++ rest, pre.length⟩ =
    (some x, ⟨pre ++ bytes ++ rest, pre.length + bytes.length⟩)

theorem readsAs_pure {α : Type} (a : α) : ReadsAs (rpure a) [] a := by
  intro pre rest
  simp [rpure]

theorem readsAs_bind {α β : Type} {m : ByteReader → Option α × ByteReader}
    {f : α → ByteReader → Option β × ByteReader} {b₁ b₂ : List Nat}
    {x : α} {y : β} (h₁ : ReadsAs m b₁ x) (h₂ : ReadsAs (f x) b₂ y) :
    ReadsAs (rbind m f) (b₁ ++ b₂) y := by
  intro pre rest
  have hdata : pre ++ (b₁ ++ b₂) ++ rest = pre ++ b₁ ++ (b₂ ++ rest) := by
    simp [List.append_assoc]
  have h1 := h₁ pre (b₂ ++ rest)
  have h2 := h₂ (pre ++ b₁) rest
  rw [hdata]
  unfold rbind
  rw [h1]
  simp only []
  have hdata2 : pre ++ b₁ ++ b₂ ++ rest = pre ++ b₁ ++ (b₂ ++ rest) := by
    simp [List.append_assoc]
  rw [hdata2] at h2
  rw [show pre.length + b₁.length = (pre ++ b₁).length from by simp]
  rw [h2]
  simp [List.length_append, Nat.add_assoc]

/-- Byte lookup in the middle block of a three-way split. -/
theorem getD_append_mid (pre mid rest : List Nat) (i : Nat)
    (h : i < mid.length) :
    (pre ++ mid ++ rest).getD (pre.length + i) 0 = mid.getD i 0 := by
  rw [List.getD_eq_getElem?_getD, List.getD_eq_getElem?_getD]
  rw [List.getElem?_append_left (by simp; omega)]
  rw [List.getElem?_append_right (by omega)]
  rw [Nat.add_sub_cancel_left]

/-- Splitting a disjoint bitwise or into an addition
(`Nat.mul_add_lt_is_or` in the form the decoder expressions need). -/
theorem lor_eq_add_of_lt (k x y m : Nat) (hm : m = 2 ^ k) (hx : x % m = 0)
    (hy : y < m) : x ||| y = x + y := by
  subst hm
  obtain ⟨a, rfl⟩ := Nat.dvd_of_mod_eq_zero hx
  exact (Nat.mul_add_lt_is_or hy a).symm

/-- Reassembling the four big-endian bytes of a `uint32` value. -/
theorem be32_reconstruct (v : Nat) (hv : v < two32) :
    (((v >>> 24) &&& 255) <<< 24) ||| (((v >>> 16) &&& 255) <<< 16) |||
      (((v >>> 8) &&& 255) <<< 8) ||| (v &&& 255) = v := by
  have h255 : ∀ x : Nat, x &&& 255 = x % 256 := by
    intro x
    have h := Nat.and_pow_two_sub_one_eq_mod x 8
    norm_num at h
    exact h
  simp only [h255, Nat.shiftLeft_eq, Nat.shiftRight_eq_div_pow,
    (by norm_num : (2 : Nat) ^ 24 = 16777216),
    (by norm_num : (2 : Nat) ^ 16 = 65536),
    (by norm_num : (2 : Nat) ^ 8 = 256)]
  rw [lor_eq_add_of_lt 24 (v / 16777216 % 256 * 16777216)
      (v / 65536 % 256 * 65536) 16777216 (by norm_num) (by omega) (by omega)]
  rw [lor_eq_add_of_lt 16
      (v / 16777216 % 256 * 16777216 + v / 65536 % 256 * 65536)
      (v / 256 % 256 * 256) 65536 (by norm_num) (by omega) (by omega)]
  rw [lor_eq_add_of_lt 8
      (v / 16777216 % 256 * 16777216 + v / 65536 % 256 * 65536 +
        v / 256 % 256 * 256) (v % 256) 256 (by norm_num) (by omega) (by omega)]
  have hv' : v < 4294967296 := hv
  omega

/-- Reassembling the two big-endian bytes of a `uint16` value. -/
theorem be16_reconstruct (v : Nat) (hv : v < 65536) :
    (((v >>> 8) &&& 255) <<< 8) ||| (v &&& 255) = v := by
  have h255 : ∀ x : Nat, x &&& 255 = x % 256 := by
    intro x
    have h := Nat.and_pow_two_sub_one_eq_mod x 8
    norm_num at h
    exact h
  simp only [h255, Nat.shiftLeft_eq, Nat.shiftRight_eq_div_pow,
    (by norm_num : (2 : Nat) ^ 8 = 256)]
  rw [lor_eq_add_of_lt 8 (v / 256 % 256 * 256) (v % 256) 256
      (by norm_num) (by omega) (by omega)]
  omega

/-- A recognized block can be renamed along byte-list and value equalities. -/
theorem readsAs_congr {α : Type} {rd : ByteReader → Option α × ByteReader}
    {b b' : List Nat} {x x' : α} (h : ReadsAs rd b x) (hb : b = b')
    (hx : x = x') : ReadsAs rd b' x' := hb ▸ hx ▸ h

theorem readsAs_readUint32 (v : Nat) (hv : v < two32) :
    ReadsAs readUint32 (writeUint32 v) v := by
  intro pre rest
  have b0 : (pre ++ writeUint32 v ++ rest).getD pre.length 0
      = (v >>> 24) &&& 255 := by
    have h := getD_append_mid pre (writeUint32 v) rest 0 (by simp [writeUint32])
    simpa [writeUint32] using h
  have b1 : (pre ++ writeUint32 v ++ rest).getD (pre.length + 1) 0
      = (v >>> 16) &&& 255 := by
    have h := getD_append_mid pre (writeUint32 v) rest 1 (by simp [writeUint32])
    simpa [writeUint32] using h
  have b2 : (pre ++ writeUint32 v ++ rest).getD (pre.length + 2) 0
      = (v >>> 8) &&& 255 := by
    have h := getD_append_mid pre (writeUint32 v) rest 2 (by simp [writeUint32])
    simpa [writeUint32] using h
  have b3 : (pre ++ writeUint32 v ++ rest).getD (pre.length + 3) 0
      = v &&& 255 := by
    have h := getD_append_mid pre (writeUint32 v) rest 3 (by simp [writeUint32])
    simpa [writeUint32] using h
  have hcan : canRead ⟨pre ++ writeUint32 v ++ rest, pre.length⟩ 4 = true := by
    simp [canRead, writeUint32, List.length_append]
  simp only [readUint32, hcan, if_true, byteAt]
  rw [b0, b1, b2, b3, be32_reconstruct v hv]
  simp [writeUint32]

theorem readsAs_readUint16 (v : Nat) (hv : v < 65536) :
    ReadsAs readUint16 (writeUint16 v) v := by
  intro pre rest
  have b0 : (pre ++ writeUint16 v ++ rest).getD pre.length 0
      = (v >>> 8) &&& 255 := by
    have h := getD_append_mid pre (writeUint16 v) rest 0 (by simp [writeUint16])
    simpa [writeUint16] using h
  have b1 : (pre ++ writeUint16 v ++ rest).getD (pre.length + 1) 0
      = v &&& 255 := by
    have h := getD_append_mid pre (writeUint16 v) rest 1 (by simp [writeUint16])
    simpa [writeUint16] using h
  have hcan : canRead ⟨pre ++ writeUint16 v ++ rest, pre.length⟩ 2 = true := by
    simp [canRead, writeUint16, List.length_append]
  simp only [readUint16, hcan, if_true, byteAt]
  rw [b0, b1, be16_reconstruct v hv]
  simp [writeUint16]

theorem readsAs_readUint8 (v : Nat) (hv : v < 256) :
    ReadsAs readUint8 (writeUint8 v) v := by
  intro pre rest
  have b0 : (pre ++ writeUint8 v ++ rest).getD pre.length 0 = v % 256 := by
    have h := getD_append_mid pre (writeUint8 v) rest 0 (by simp [writeUint8])
    simpa [writeUint8] using h
  have hcan : canRead ⟨pre ++ writeUint8 v ++ rest, pre.length⟩ 1 = true := by
    simp [canRead, writeUint8, List.length_append]
  simp only [readUint8, hcan, if_true, byteAt]
  rw [b0, Nat.mod_eq_of_lt hv]
  simp [writeUint8]

theorem readsAs_readBool (b : Bool) : ReadsAs readBool (writeBool b) b := by
  intro pre rest
  have b0 : (pre ++ writeBool b ++ rest).getD pre.length 0
      = (if b then 1 else 0) := by
    have h := getD_append_mid pre (writeBool b) rest 0 (by simp [writeBool])
    simpa [writeBool] using h
  have hcan : canRead ⟨pre ++ writeBool b ++ rest, pre.length⟩ 1 = true := by
    simp [canRead, writeBool, List.length_append]
  simp only [readBool, hcan, if_true, byteAt, b0]
  cases b <;> simp [writeBool]

theorem toSigned32_emod (v : Int) (h1 : -2147483648 ≤ v)
    (h2 : v < 2147483648) : toSigned32 ((v % (two32 : Int)).toNat) = v := by
  unfold toSigned32 two32 two31
  split <;> omega

theorem toSigned16_emod (v : Int) (h1 : -32768 ≤ v) (h2 : v < 32768) :
    toSigned16 ((v % (65536 : Int)).toNat) = v := by
  unfold toSigned16
  split <;> omega

theorem toSigned8_emod (v : Int) (h1 : -128 ≤ v) (h2 : v < 128) :
    toSigned8 ((v % (256 : Int)).toNat) = v := by
  unfold toSigned8
  split <;> omega

theorem toSigned64_emod (v : Int) (h1 : -9223372036854775808 ≤ v)
    (h2 : v < 9223372036854775808) :
    toSigned64 ((v % (18446744073709551616 : Int)).toNat) = v := by
  unfold toSigned64
  split <;> omega

theorem readsAs_readInt32 (v : Int) (h1 : -2147483648 ≤ v)
    (h2 : v < 2147483648) : ReadsAs readInt32 (writeInt32 v) v := by
  have hu : (v % (two32 : Int)).toNat < two32 := by
    simp only [two32]
    omega
  intro pre rest
  have h := readsAs_readUint32 _ hu pre rest
  simp only [readInt32, writeInt32]
  rw [h]
  simp [toSigned32_emod v h1 h2]

theorem readsAs_readInt16 (v : Int) (h1 : -32768 ≤ v) (h2 : v < 32768) :
    ReadsAs readInt16 (writeInt16 v) v := by
  have hu : (v % (65536 : Int)).toNat < 65536 := by omega
  intro pre rest
  have h := readsAs_readUint16 _ hu pre rest
  simp only [readInt16, writeInt16]
  rw [h]
  simp [toSigned16_emod v h1 h2]

theorem readsAs_readInt8 (v : Int) (h1 : -128 ≤ v) (h2 : v < 128) :
    ReadsAs readInt8 (writeInt8 v) v := by
  have hu : (v % (256 : Int)).toNat < 256 := by omega
  intro pre rest
  have h := readsAs_readUint8 _ hu pre rest
  simp only [writeUint8, Nat.mod_eq_of_lt hu] at h
  simp only [readInt8, writeInt8]
  rw [h]
  simp [toSigned8_emod v h1 h2]

theorem readsAs_readChar (v : Int) (h1 : -128 ≤ v) (h2 : v < 128) :
    ReadsAs readChar (writeChar v) v := by
  have hu : (v % (256 : Int)).toNat < 256 := by omega
  intro pre rest
  have h := readsAs_readUint8 _ hu pre rest
  simp only [writeUint8, Nat.mod_eq_of_lt hu] at h
  simp only [readChar, writeChar]
  rw [h]
  simp [toSigned8_emod v h1 h2]

theorem readUint64_eq_bind : readUint64 = rbind readUint32 fun high =>
    rbind readUint32 fun low => rpure ((high <<< 32) ||| low) := by
  funext r
  unfold readUint64 rbind rpure
  cases h : readUint32 r with
  | mk o r1 =>
    cases o with
    | none => rfl
    | some high =>
      simp only []
      cases h2 : readUint32 r1 with
      | mk o2 r2 => cases o2 <;> rfl

theorem readsAs_readUint64 (v : Nat) (hv : v < 18446744073709551616) :
    ReadsAs readUint64 (writeUint64 v) v := by
  have hdiv : v >>> 32 = v / 4294967296 := by
    rw [Nat.shiftRight_eq_div_pow]
  have hhi : v >>> 32 < two32 := by
    rw [hdiv]
    simp only [two32]
    omega
  have hlo_eq : v &&& (two32 - 1) = v % two32 := by
    have h := Nat.and_pow_two_sub_one_eq_mod v 32
    simp only [two32]
    norm_num at h
    exact h
  have hlo : v % two32 < two32 := by
    simp only [two32]
    omega
  rw [readUint64_eq_bind]
  have h : ReadsAs (rbind readUint32 fun high =>
        rbind readUint32 fun low => rpure ((high <<< 32) ||| low))
      (writeUint32 (v >>> 32) ++ (writeUint32 (v % two32) ++ []))
      (((v >>> 32) <<< 32) ||| (v % two32)) :=
    readsAs_bind (readsAs_readUint32 (v >>> 32) hhi)
      (readsAs_bind (readsAs_readUint32 (v % two32) hlo)
        (readsAs_pure (((v >>> 32) <<< 32) ||| (v % two32))))
  refine readsAs_congr h ?_ ?_
  · simp [writeUint64, hlo_eq]
  · have e1 : (v >>> 32) <<< 32 = v / 4294967296 * 4294967296 := by
      rw [hdiv, Nat.shiftLeft_eq]
    rw [e1, lor_eq_add_of_lt 32 (v / 4294967296 * 4294967296) (v % two32)
        4294967296 (by norm_num) (by omega) (by simp only [two32]; omega)]
    simp only [two32]
    omega

theorem readsAs_readInt64 (v : Int) (h1 : -9223372036854775808 ≤ v)
    (h2 : v < 9223372036854775808) : ReadsAs readInt64 (writeInt64 v) v := by
  have hu : (v % ((4294967296 * 4294967296 : Nat) : Int)).toNat
      < 18446744073709551616 := by omega
  intro pre rest
  have h := readsAs_readUint64 _ hu pre rest
  simp only [readInt64, writeInt64]
  rw [h]
  simp [toSigned64_emod v h1 h2]

theorem readsAs_readFloat (v : Nat) (hv : v < two32) :
    ReadsAs readFloat (writeFloat v) v :=
  readsAs_readUint32 v hv

theorem readsAs_readDouble (v : Nat) (hv : v < 18446744073709551616) :
    ReadsAs readDouble (writeDouble v) v := by
  have heq : readDouble = readUint64 := by
    funext r
    unfold readDouble readUint64
    rfl
  rw [heq]
  exact readsAs_readUint64 v hv

theorem readsAs_readString (s : List Nat) (hs : s.length < two32) :
    ReadsAs readString (writeString s) s := by
  have hlen : s.length % two32 = s.length := Nat.mod_eq_of_lt hs
  intro pre rest
  have h32 := readsAs_readUint32 (s.length % two32)
    (by simp only [two32]; omega) pre (s ++ rest)
  have hsplit : pre ++ writeString s ++ rest
      = pre ++ writeUint32 (s.length % two32) ++ (s ++ rest) := by
    simp [writeString, List.append_assoc]
  unfold readString
  rw [hsplit, h32]
  simp only []
  have hcan : canRead ⟨pre ++ writeUint32 (s.length % two32) ++ (s ++ rest),
      pre.length + (writeUint32 (s.length % two32)).length⟩
      (s.length % two32) = true := by
    simp [canRead, writeUint32, List.length_append, hlen]
    omega
  rw [hcan]
  simp only [if_true]
  have hdrop : ((pre ++ writeUint32 (s.length % two32) ++ (s ++ rest)).drop
      (pre.length + (writeUint32 (s.length % two32)).length)) = s ++ rest := by
    rw [List.drop_left']
    simp [List.length_append]
  rw [hdrop, hlen, List.take_left]
  simp [writeString, writeUint32, List.length_append, hlen, Nat.add_assoc]
  omega

/-! ## Sequences — the generated per-field `writeUint32(size)` + loop pattern -/

/-- The generated sequence write: `uint32` count (`vec.size()` narrowed to
`uint32_t`), then each element's encoding in order. -/
def writeSeq {α : Type} (w : α → List Nat) (xs : List α) : List Nat :=
  writeUint32 (xs.length % two32) ++ (xs.map w).flatten

/-- The generated element read loop (`for (i = 0; i < count; i++)`); a
thrown underflow aborts the loop where it stands. -/
def readN {α : Type} (rd : ByteReader → Option α × ByteReader) :
    Nat → ByteReader → Option (List α) × ByteReader
  | 0, r => (some [], r)
  | n+1, r =>
    match rd r with
    | (none, r') => (none, r')
    | (some x, r') =>
      match readN rd n r' with
      | (none, r'') => (none, r'')
      | (some xs, r'') => (some (x :: xs), r'')

/-- The generated sequence read: `uint32` count, then `count` element reads. -/
def readSeq {α : Type} (rd : ByteReader → Option α × ByteReader) :
    ByteReader → Option (List α) × ByteReader :=
  rbind readUint32 fun count => readN rd count

theorem readN_succ_eq_bind {α : Type} (rd : ByteReader → Option α × ByteReader)
    (n : Nat) : readN rd (n+1) =
      rbind rd fun x => rbind (readN rd n) fun xs => rpure (x :: xs) := by
  funext r
  simp only [readN, rbind, rpure]
  cases h1 : rd r with
  | mk o r1 =>
    cases o with
    | none => rfl
    | some x =>
      simp only []
      cases h2 : readN rd n r1 with
      | mk o2 r2 => cases o2 <;> rfl

theorem readsAs_readN {α : Type} {w : α → List Nat}
    {rd : ByteReader → Option α × ByteReader} {P : α → Prop}
    (hrt : ∀ x, P x → ReadsAs rd (w x) x) :
    ∀ xs : List α, (∀ x ∈ xs, P x) →
      ReadsAs (readN rd xs.length) ((xs.map w).flatten) xs := by
  intro xs
  induction xs with
  | nil =>
    intro _ pre rest
    simp [readN]
  | cons x xs ih =>
    intro hall
    rw [show (x :: xs).length = xs.length + 1 from rfl, readN_succ_eq_bind]
    have h : ReadsAs (rbind rd fun y =>
          rbind (readN rd xs.length) fun ys => rpure (y :: ys))
        (w x ++ ((xs.map w).flatten ++ [])) (x :: xs) :=
      readsAs_bind (hrt x (hall x (by simp)))
        (readsAs_bind (ih (fun y hy => hall y (by simp [hy])))
          (readsAs_pure (x :: xs)))
    exact readsAs_congr h (by simp) rfl

theorem readsAs_readSeq {α : Type} {w : α → List Nat}
    {rd : ByteReader → Option α × ByteReader} {P : α → Prop}
    (hrt : ∀ x, P x → ReadsAs rd (w x) x) (xs : List α)
    (hlen : xs.length < two32) (hall : ∀ x ∈ xs, P x) :
    ReadsAs (readSeq rd) (writeSeq w xs) xs := by
  unfold readSeq writeSeq
  rw [Nat.mod_eq_of_lt hlen]
  exact readsAs_bind (readsAs_readUint32 xs.length hlen)
    (readsAs_readN hrt xs hall)

/-! ## Declared IDL types of `TypeTestService` -/

/-- `enum class Priority { LOW, MEDIUM, HIGH, CRITICAL }`.  The C++ object
is an `int32` under the hood; `static_cast` can place any `int32` in it,
so the embedding carries the underlying ordinal. -/
structure Priority where
  ord : Int
  deriving Repr, DecidableEq

/-- Number of declared `Priority` variants. -/
def Priority.variantCount : Nat := 4

def Priority.LOW : Priority := ⟨0⟩

def Priority.MEDIUM : Priority := ⟨1⟩

def Priority.HIGH : Priority := ⟨2⟩

def Priority.CRITICAL : Priority := ⟨3⟩

/-- `enum class Status { PENDING, PROCESSING, COMPLETED, FAILED }`. -/
structure Status where
  ord : Int
  deriving Repr, DecidableEq

/-- Number of declared `Status` variants. -/
def Status.variantCount : Nat := 4

def Status.PENDING : Status := ⟨0⟩

def Status.PROCESSING : Status := ⟨1⟩

def Status.COMPLETED : Status := ⟨2⟩

def Status.FAILED : Status := ⟨3⟩

/-- `buffer.writeInt32(static_cast<int32_t>(p))` — the enum write. -/
def writePriority (p : Priority) : List Nat := writeInt32 p.ord

/-- `static_cast<Priority>(reader.readInt32())` — the enum read.  Note the
generated code performs no range check on the ordinal. -/
def readPriority (r : ByteReader) : Option Priority × ByteReader :=
  match readInt32 r with
  | (some u, r') => (some ⟨u⟩, r')
  | (none, r') => (none, r')

/-- `buffer.writeInt32(static_cast<int32_t>(s))`. -/
def writeStatus (s : Status) : List Nat := writeInt32 s.ord

/-- `static_cast<Status>(reader.readInt32())` — no range check. -/
def readStatus (r : ByteReader) : Option Status × ByteReader :=
  match readInt32 r with
  | (some u, r') => (some ⟨u⟩, r')
  | (none, r') => (none, r')

/-- The `int32` range constraint a stored enum ordinal satisfies. -/
def Priority.valid (p : Priority) : Prop :=
  -2147483648 ≤ p.ord ∧ p.ord < 2147483648

def Status.valid (s : Status) : Prop :=
  -2147483648 ≤ s.ord ∧ s.ord < 2147483648

theorem readsAs_readPriority (p : Priority) (hp : p.valid) :
    ReadsAs readPriority (writePriority p) p := by
  intro pre rest
  have h := readsAs_readInt32 p.ord hp.1 hp.2 pre rest
  simp only [readPriority, writePriority]
  rw [h]

theorem readsAs_readStatus (s : Status) (hs : s.valid) :
    ReadsAs readStatus (writeStatus s) s := by
  intro pre rest
  have h := readsAs_readInt32 s.ord hs.1 hs.2 pre rest
  simp only [readStatus, writeStatus]
  rw [h]

/-- `struct IntegerTypes` — eight integer fields of every width. -/
structure IntegerTypes where
  i8 : Int
  u8 : Nat
  i16 : Int
  u16 : Nat
  i32 : Int
  u32 : Nat
  i64 : Int
  u64 : Nat
  deriving Repr, DecidableEq

/-- `IntegerTypes::serialize` — fields in declaration order. -/
def IntegerTypes.serialize (v : IntegerTypes) : List Nat :=
  writeInt8 v.i8 ++ writeUint8 v.u8 ++ writeInt16 v.i16 ++ writeUint16 v.u16 ++
  writeInt32 v.i32 ++ writeUint32 v.u32 ++ writeInt64 v.i64 ++ writeUint64 v.u64

/-- `IntegerTypes::deserialize` — the same fields read back in order. -/
def IntegerTypes.deserialize : ByteReader → Option IntegerTypes × ByteReader :=
  rbind readInt8 fun i8 => rbind readUint8 fun u8 =>
  rbind readInt16 fun i16 => rbind readUint16 fun u16 =>
  rbind readInt32 fun i32 => rbind readUint32 fun u32 =>
  rbind readInt64 fun i64 => rbind readUint64 fun u64 =>
  rpure ⟨i8, u8, i16, u16, i32, u32, i64, u64⟩

/-- Range constraints of the C++ field types. -/
def IntegerTypes.valid (v : IntegerTypes) : Prop :=
  -128 ≤ v.i8 ∧ v.i8 < 128 ∧ v.u8 < 256 ∧
  -32768 ≤ v.i16 ∧ v.i16 < 32768 ∧ v.u16 < 65536 ∧
  -2147483648 ≤ v.i32 ∧ v.i32 < 2147483648 ∧ v.u32 < two32 ∧
  -9223372036854775808 ≤ v.i64 ∧ v.i64 < 9223372036854775808 ∧
  v.u64 < 18446744073709551616

theorem readsAs_IntegerTypes (v : IntegerTypes) (hv : v.valid) :
    ReadsAs IntegerTypes.deserialize v.serialize v := by
  obtain ⟨h1, h2, h3, h4, h5, h6, h7, h8, h9, h10, h11, h12⟩ := hv
  have h : ReadsAs IntegerTypes.deserialize
      (writeInt8 v.i8 ++ (writeUint8 v.u8 ++ (writeInt16 v.i16 ++
       (writeUint16 v.u16 ++ (writeInt32 v.i32 ++ (writeUint32 v.u32 ++
       (writeInt64 v.i64 ++ (writeUint64 v.u64 ++ [])))))))) v :=
    readsAs_bind (readsAs_readInt8 _ h1 h2) <|
    readsAs_bind (readsAs_readUint8 _ h3) <|
    readsAs_bind (readsAs_readInt16 _ h4 h5) <|
    readsAs_bind (readsAs_readUint16 _ h6) <|
    readsAs_bind (readsAs_readInt32 _ h7 h8) <|
    readsAs_bind (readsAs_readUint32 _ h9) <|
    readsAs_bind (readsAs_readInt64 _ h10 h11) <|
    readsAs_bind (readsAs_readUint64 _ h12) <|
    readsAs_pure (⟨v.i8, v.u8, v.i16, v.u16, v.i32, v.u32, v.i64, v.u64⟩ : IntegerTypes)
  exact readsAs_congr h (by simp [IntegerTypes.serialize, List.append_assoc]) rfl

/-- `struct FloatAndCharTypes` — float/double carried as bit patterns. -/
structure FloatAndCharTypes where
  f : Nat
  d : Nat
  c : Int
  b : Bool
  str : List Nat
  deriving Repr, DecidableEq

/-- `FloatAndCharTypes::serialize`. -/
def FloatAndCharTypes.serialize (v : FloatAndCharTypes) : List Nat :=
  writeFloat v.f ++ writeDouble v.d ++ writeChar v.c ++ writeBool v.b ++
  writeString v.str

/-- `FloatAndCharTypes::deserialize`. -/
def FloatAndCharTypes.deserialize :
    ByteReader → Option FloatAndCharTypes × ByteReader :=
  rbind readFloat fun f => rbind readDouble fun d =>
  rbind readChar fun c => rbind readBool fun b =>
  rbind readString fun str => rpure ⟨f, d, c, b, str⟩

def FloatAndCharTypes.valid (v : FloatAndCharTypes) : Prop :=
  v.f < two32 ∧ v.d < 18446744073709551616 ∧ -128 ≤ v.c ∧ v.c < 128 ∧
  v.str.length < two32

theorem readsAs_FloatAndCharTypes (v : FloatAndCharTypes) (hv : v.valid) :
    ReadsAs FloatAndCharTypes.deserialize v.serialize v := by
  obtain ⟨h1, h2, h3, h4, h5⟩ := hv
  have h : ReadsAs FloatAndCharTypes.deserialize
      (writeFloat v.f ++ (writeDouble v.d ++ (writeChar v.c ++
       (writeBool v.b ++ (writeString v.str ++ []))))) v :=
    readsAs_bind (readsAs_readFloat _ h1) <|
    readsAs_bind (readsAs_readDouble _ h2) <|
    readsAs_bind (readsAs_readChar _ h3 h4) <|
    readsAs_bind (readsAs_readBool v.b) <|
    readsAs_bind (readsAs_readString _ h5) <|
    readsAs_pure (⟨v.f, v.d, v.c, v.b, v.str⟩ : FloatAndCharTypes)
  exact readsAs_congr h
    (by simp [FloatAndCharTypes.serialize, List.append_assoc]) rfl

/-- `struct NestedData` — records nested in a record, plus two enums. -/
structure NestedData where
  integers : IntegerTypes
  floats : FloatAndCharTypes
  priority : Priority
  status : Status
  deriving Repr, DecidableEq

/-- `NestedData::serialize`. -/
def NestedData.serialize (v : NestedData) : List Nat :=
  v.integers.serialize ++ v.floats.serialize ++
  writePriority v.priority ++ writeStatus v.status

/-- `NestedData::deserialize` — nested deserializers, then the two enum
reads (`static_cast`, unchecked). -/
def NestedData.deserialize : ByteReader → Option NestedData × ByteReader :=
  rbind IntegerTypes.deserialize fun integers =>
  rbind FloatAndCharTypes.deserialize fun floats =>
  rbind readPriority fun priority =>
  rbind readStatus fun status =>
  rpure ⟨integers, floats, priority, status⟩

def NestedData.valid (v : NestedData) : Prop :=
  v.integers.valid ∧ v.floats.valid ∧ v.priority.valid ∧ v.status.valid

theorem readsAs_NestedData (v : NestedData) (hv : v.valid) :
    ReadsAs NestedData.deserialize v.serialize v := by
  obtain ⟨h1, h2, h3, h4⟩ := hv
  have h : ReadsAs NestedData.deserialize
      (v.integers.serialize ++ (v.floats.serialize ++
       (writePriority v.priority ++ (writeStatus v.status ++ [])))) v :=
    readsAs_bind (readsAs_IntegerTypes _ h1) <|
    readsAs_bind (readsAs_FloatAndCharTypes _ h2) <|
    readsAs_bind (readsAs_readPriority _ h3) <|
    readsAs_bind (readsAs_readStatus _ h4) <|
    readsAs_pure (⟨v.integers, v.floats, v.priority, v.status⟩ : NestedData)
  exact readsAs_congr h (by simp [NestedData.serialize, List.append_assoc]) rfl

/-- `struct ComplexData` — one sequence field per element kind. -/
structure ComplexData where
  i8seq : List Int
  u8seq : List Nat
  i16seq : List Int
  u16seq : List Nat
  i32seq : List Int
  u32seq : List Nat
  i64seq : List Int
  u64seq : List Nat
  fseq : List Nat
  dseq : List Nat
  cseq : List Int
  bseq : List Bool
  strseq : List (List Nat)
  priseq : List Priority
  stseq : List Status
  intseq : List IntegerTypes
  nestedseq : List NestedData
  deriving Repr, DecidableEq

/-- `ComplexData::serialize` — per field: `writeUint32(size)` then the
element writes, in declaration order. -/
def ComplexData.serialize (v : ComplexData) : List Nat :=
  writeSeq writeInt8 v.i8seq ++ writeSeq writeUint8 v.u8seq ++
  writeSeq writeInt16 v.i16seq ++ writeSeq writeUint16 v.u16seq ++
  writeSeq writeInt32 v.i32seq ++ writeSeq writeUint32 v.u32seq ++
  writeSeq writeInt64 v.i64seq ++ writeSeq writeUint64 v.u64seq ++
  writeSeq writeFloat v.fseq ++ writeSeq writeDouble v.dseq ++
  writeSeq writeChar v.cseq ++ writeSeq writeBool v.bseq ++
  writeSeq writeString v.strseq ++ writeSeq writePriority v.priseq ++
  writeSeq writeStatus v.stseq ++
  writeSeq IntegerTypes.serialize v.intseq ++
  writeSeq NestedData.serialize v.nestedseq

/-- `ComplexData::deserialize` — per field: a count read then the element
read loop, in declaration order. -/
def ComplexData.deserialize : ByteReader → Option ComplexData × ByteReader :=
  rbind (readSeq readInt8) fun i8seq =>
  rbind (readSeq readUint8) fun u8seq =>
  rbind (readSeq readInt16) fun i16seq =>
  rbind (readSeq readUint16) fun u16seq =>
  rbind (readSeq readInt32) fun i32seq =>
  rbind (readSeq readUint32) fun u32seq =>
  rbind (readSeq readInt64) fun i64seq =>
  rbind (readSeq readUint64) fun u64seq =>
  rbind (readSeq readFloat) fun fseq =>
  rbind (readSeq readDouble) fun dseq =>
  rbind (readSeq readChar) fun cseq =>
  rbind (readSeq readBool) fun bseq =>
  rbind (readSeq readString) fun strseq =>
  rbind (readSeq readPriority) fun priseq =>
  rbind (readSeq readStatus) fun stseq =>
  rbind (readSeq IntegerTypes.deserialize) fun intseq =>
  rbind (readSeq NestedData.deserialize) fun nestedseq =>
  rpure ⟨i8seq, u8seq, i16seq, u16seq, i32seq, u32seq, i64seq, u64seq,
         fseq, dseq, cseq, bseq, strseq, priseq, stseq, intseq, nestedseq⟩

def ComplexData.valid (v : ComplexData) : Prop :=
  (v.i8seq.length < two32 ∧ ∀ x ∈ v.i8seq, -128 ≤ x ∧ x < 128) ∧
  (v.u8seq.length < two32 ∧ ∀ x ∈ v.u8seq, x < 256) ∧
  (v.i16seq.length < two32 ∧ ∀ x ∈ v.i16seq, -32768 ≤ x ∧ x < 32768) ∧
  (v.u16seq.length < two32 ∧ ∀ x ∈ v.u16seq, x < 65536) ∧
  (v.i32seq.length < two32 ∧
    ∀ x ∈ v.i32seq, -2147483648 ≤ x ∧ x < 2147483648) ∧
  (v.u32seq.length < two32 ∧ ∀ x ∈ v.u32seq, x < two32) ∧
  (v.i64seq.length < two32 ∧
    ∀ x ∈ v.i64seq, -9223372036854775808 ≤ x ∧ x < 9223372036854775808) ∧
  (v.u64seq.length < two32 ∧ ∀ x ∈ v.u64seq, x < 18446744073709551616) ∧
  (v.fseq.length < two32 ∧ ∀ x ∈ v.fseq, x < two32) ∧
  (v.dseq.length < two32 ∧ ∀ x ∈ v.dseq, x < 18446744073709551616) ∧
  (v.cseq.length < two32 ∧ ∀ x ∈ v.cseq, -128 ≤ x ∧ x < 128) ∧
  v.bseq.length < two32 ∧
  (v.strseq.length < two32 ∧ ∀ x ∈ v.strseq, x.length < two32) ∧
  (v.priseq.length < two32 ∧ ∀ x ∈ v.priseq, x.valid) ∧
  (v.stseq.length < two32 ∧ ∀ x ∈ v.stseq, x.valid) ∧
  (v.intseq.length < two32 ∧ ∀ x ∈ v.intseq, x.valid) ∧
  (v.nestedseq.length < two32 ∧ ∀ x ∈ v.nestedseq, x.valid)

theorem readsAs_ComplexData (v : ComplexData) (hv : v.valid) :
    ReadsAs ComplexData.deserialize v.serialize v := by
  obtain ⟨⟨l1, e1⟩, ⟨l2, e2⟩, ⟨l3, e3⟩, ⟨l4, e4⟩, ⟨l5, e5⟩, ⟨l6, e6⟩,
    ⟨l7, e7⟩, ⟨l8, e8⟩, ⟨l9, e9⟩, ⟨l10, e10⟩, ⟨l11, e11⟩, l12,
    ⟨l13, e13⟩, ⟨l14, e14⟩, ⟨l15, e15⟩, ⟨l16, e16⟩, ⟨l17, e17⟩⟩ := hv
  have h : ReadsAs ComplexData.deserialize
      (writeSeq writeInt8 v.i8seq ++ (writeSeq writeUint8 v.u8seq ++
       (writeSeq writeInt16 v.i16seq ++ (writeSeq writeUint16 v.u16seq ++
       (writeSeq writeInt32 v.i32seq ++ (writeSeq writeUint32 v.u32seq ++
       (writeSeq writeInt64 v.i64seq ++ (writeSeq writeUint64 v.u64seq ++
       (writeSeq writeFloat v.fseq ++ (writeSeq writeDouble v.dseq ++
       (writeSeq writeChar v.cseq ++ (writeSeq writeBool v.bseq ++
       (writeSeq writeString v.strseq ++ (writeSeq writePriority v.priseq ++
       (writeSeq writeStatus v.stseq ++
       (writeSeq IntegerTypes.serialize v.intseq ++
       (writeSeq NestedData.serialize v.nestedseq ++
        []))))))))))))))))) v :=
    readsAs_bind (readsAs_readSeq
      (fun x hx => readsAs_readInt8 x hx.1 hx.2) _ l1 e1) <|
    readsAs_bind (readsAs_readSeq
      (fun x hx => readsAs_readUint8 x hx) _ l2 e2) <|
    readsAs_bind (readsAs_readSeq
      (fun x hx => readsAs_readInt16 x hx.1 hx.2) _ l3 e3) <|
    readsAs_bind (readsAs_readSeq
      (fun x hx => readsAs_readUint16 x hx) _ l4 e4) <|
    readsAs_bind (readsAs_readSeq
      (fun x hx => readsAs_readInt32 x hx.1 hx.2) _ l5 e5) <|
    readsAs_bind (readsAs_readSeq
      (fun x hx => readsAs_readUint32 x hx) _ l6 e6) <|
    readsAs_bind (readsAs_readSeq
      (fun x hx => readsAs_readInt64 x hx.1 hx.2) _ l7 e7) <|
    readsAs_bind (readsAs_readSeq
      (fun x hx => readsAs_readUint64 x hx) _ l8 e8) <|
    readsAs_bind (readsAs_readSeq
      (fun x hx => readsAs_readFloat x hx) _ l9 e9) <|
    readsAs_bind (readsAs_readSeq
      (fun x hx => readsAs_readDouble x hx) _ l10 e10) <|
    readsAs_bind (readsAs_readSeq
      (fun x hx => readsAs_readChar x hx.1 hx.2) _ l11 e11) <|
    readsAs_bind (readsAs_readSeq
      (fun (x : Bool) (_ : True) => readsAs_readBool x) _ l12
      (fun _ _ => trivial)) <|
    readsAs_bind (readsAs_readSeq
      (fun x hx => readsAs_readString x hx) _ l13 e13) <|
    readsAs_bind (readsAs_readSeq
      (fun x hx => readsAs_readPriority x hx) _ l14 e14) <|
    readsAs_bind (readsAs_readSeq
      (fun x hx => readsAs_readStatus x hx) _ l15 e15) <|
    readsAs_bind (readsAs_readSeq
      (fun x hx => readsAs_IntegerTypes x hx) _ l16 e16) <|
    readsAs_bind (readsAs_readSeq
      (fun x hx => readsAs_NestedData x hx) _ l17 e17) <|
    readsAs_pure (⟨v.i8seq, v.u8seq, v.i16seq, v.u16seq, v.i32seq, v.u32seq,
      v.i64seq, v.u64seq, v.fseq, v.dseq, v.cseq, v.bseq, v.strseq, v.priseq,
      v.stseq, v.intseq, v.nestedseq⟩ : ComplexData)
  exact readsAs_congr h (by simp [ComplexData.serialize, List.append_assoc]) rfl

/-! ## Message layer — ids and the message structs the claims touch -/

def MSG_TESTINTEGERS_REQ : Nat := 1000

def MSG_TESTINTEGERS_RESP : Nat := 1001

def MSG_TESTENUM_RESP : Nat := 1009

def MSG_TESTINOUTPARAMS_REQ : Nat := 1038

def MSG_TESTINOUTPARAMS_RESP : Nat := 1039

def MSG_ONINTEGERUPDATE_REQ : Nat := 1040

def MSG_ONFLOATUPDATE_REQ : Nat := 1041

def MSG_ONSTRUCTUPDATE_REQ : Nat := 1042

def MSG_ONVECTORUPDATE_REQ : Nat := 1043

def MSG_ONCOMPLEXUPDATE_REQ : Nat := 1044

/-- `struct testIntegersRequest`. -/
structure testIntegersRequest where
  msg_id : Nat := MSG_TESTINTEGERS_REQ
  i8 : Int
  u8 : Nat
  i16 : Int
  u16 : Nat
  i32 : Int
  u32 : Nat
  i64 : Int
  u64 : Nat
  deriving Repr, DecidableEq

def testIntegersRequest.serialize (m : testIntegersRequest) : List Nat :=
  writeUint32 m.msg_id ++ writeInt8 m.i8 ++ writeUint8 m.u8 ++
  writeInt16 m.i16 ++ writeUint16 m.u16 ++ writeInt32 m.i32 ++
  writeUint32 m.u32 ++ writeInt64 m.i64 ++ writeUint64 m.u64

def testIntegersRequest.deserialize :
    ByteReader → Option testIntegersRequest × ByteReader :=
  rbind readUint32 fun msg_id => rbind readInt8 fun i8 =>
  rbind readUint8 fun u8 => rbind readInt16 fun i16 =>
  rbind readUint16 fun u16 => rbind readInt32 fun i32 =>
  rbind readUint32 fun u32 => rbind readInt64 fun i64 =>
  rbind readUint64 fun u64 =>
  rpure ⟨msg_id, i8, u8, i16, u16, i32, u32, i64, u64⟩

def testIntegersRequest.valid (m : testIntegersRequest) : Prop :=
  m.msg_id < two32 ∧ -128 ≤ m.i8 ∧ m.i8 < 128 ∧ m.u8 < 256 ∧
  -32768 ≤ m.i16 ∧ m.i16 < 32768 ∧ m.u16 < 65536 ∧
  -2147483648 ≤ m.i32 ∧ m.i32 < 2147483648 ∧ m.u32 < two32 ∧
  -9223372036854775808 ≤ m.i64 ∧ m.i64 < 9223372036854775808 ∧
  m.u64 < 18446744073709551616

theorem readsAs_testIntegersRequest (m : testIntegersRequest) (hm : m.valid) :
    ReadsAs testIntegersRequest.deserialize m.serialize m := by
  obtain ⟨h0, h1, h2, h3, h4, h5, h6, h7, h8, h9, h10, h11, h12⟩ := hm
  have h : ReadsAs testIntegersRequest.deserialize
      (writeUint32 m.msg_id ++ (writeInt8 m.i8 ++ (writeUint8 m.u8 ++
       (writeInt16 m.i16 ++ (writeUint16 m.u16 ++ (writeInt32 m.i32 ++
       (writeUint32 m.u32 ++ (writeInt64 m.i64 ++ (writeUint64 m.u64 ++
        []))))))))) m :=
    readsAs_bind (readsAs_readUint32 _ h0) <|
    readsAs_bind (readsAs_readInt8 _ h1 h2) <|
    readsAs_bind (readsAs_readUint8 _ h3) <|
    readsAs_bind (readsAs_readInt16 _ h4 h5) <|
    readsAs_bind (readsAs_readUint16 _ h6) <|
    readsAs_bind (readsAs_readInt32 _ h7 h8) <|
    readsAs_bind (readsAs_readUint32 _ h9) <|
    readsAs_bind (readsAs_readInt64 _ h10 h11) <|
    readsAs_bind (readsAs_readUint64 _ h12) <|
    readsAs_pure (⟨m.msg_id, m.i8, m.u8, m.i16, m.u16, m.i32, m.u32,
      m.i64, m.u64⟩ : testIntegersRequest)
  exact readsAs_congr h
    (by simp [testIntegersRequest.serialize, List.append_assoc]) rfl

/-- `struct testIntegersResponse`. -/
structure testIntegersResponse where
  msg_id : Nat := MSG_TESTINTEGERS_RESP
  status : Int := 0
  return_value : Int
  deriving Repr, DecidableEq

def testIntegersResponse.serialize (m : testIntegersResponse) : List Nat :=
  writeUint32 m.msg_id ++ writeInt32 m.status ++ writeInt32 m.return_value

def testIntegersResponse.deserialize :
    ByteReader → Option testIntegersResponse × ByteReader :=
  rbind readUint32 fun msg_id => rbind readInt32 fun status =>
  rbind readInt32 fun return_value => rpure ⟨msg_id, status, return_value⟩

def testIntegersResponse.valid (m : testIntegersResponse) : Prop :=
  m.msg_id < two32 ∧ -2147483648 ≤ m.status ∧ m.status < 2147483648 ∧
  -2147483648 ≤ m.return_value ∧ m.return_value < 2147483648

theorem readsAs_testIntegersResponse (m : testIntegersResponse)
    (hm : m.valid) : ReadsAs testIntegersResponse.deserialize m.serialize m := by
  obtain ⟨h0, h1, h2, h3, h4⟩ := hm
  have h : ReadsAs testIntegersResponse.deserialize
      (writeUint32 m.msg_id ++ (writeInt32 m.status ++
       (writeInt32 m.return_value ++ []))) m :=
    readsAs_bind (readsAs_readUint32 _ h0) <|
    readsAs_bind (readsAs_readInt32 _ h1 h2) <|
    readsAs_bind (readsAs_readInt32 _ h3 h4) <|
    readsAs_pure (⟨m.msg_id, m.status, m.return_value⟩ : testIntegersResponse)
  exact readsAs_congr h
    (by simp [testIntegersResponse.serialize, List.append_assoc]) rfl

/-- `struct testEnumResponse`. -/
structure testEnumResponse where
  msg_id : Nat := MSG_TESTENUM_RESP
  status : Int := 0
  return_value : Priority
  deriving Repr, DecidableEq

def testEnumResponse.serialize (m : testEnumResponse) : List Nat :=
  writeUint32 m.msg_id ++ writeInt32 m.status ++ writePriority m.return_value

def testEnumResponse.deserialize :
    ByteReader → Option testEnumResponse × ByteReader :=
  rbind readUint32 fun msg_id => rbind readInt32 fun status =>
  rbind readPriority fun return_value => rpure ⟨msg_id, status, return_value⟩

theorem readsAs_testEnumResponse (m : testEnumResponse)
    (h0 : m.msg_id < two32) (h1 : -2147483648 ≤ m.status)
    (h2 : m.status < 2147483648) (h3 : m.return_value.valid) :
    ReadsAs testEnumResponse.deserialize m.serialize m := by
  have h : ReadsAs testEnumResponse.deserialize
      (writeUint32 m.msg_id ++ (writeInt32 m.status ++
       (writePriority m.return_value ++ []))) m :=
    readsAs_bind (readsAs_readUint32 _ h0) <|
    readsAs_bind (readsAs_readInt32 _ h1 h2) <|
    readsAs_bind (readsAs_readPriority _ h3) <|
    readsAs_pure (⟨m.msg_id, m.status, m.return_value⟩ : testEnumResponse)
  exact readsAs_congr h
    (by simp [testEnumResponse.serialize, List.append_assoc]) rfl

/-- `struct testInOutParamsRequest`. -/
structure testInOutParamsRequest where
  msg_id : Nat := MSG_TESTINOUTPARAMS_REQ
  value : Int
  str : List Nat
  data : IntegerTypes
  seq : List Int
  deriving Repr, DecidableEq

def testInOutParamsRequest.serialize (m : testInOutParamsRequest) :
    List Nat :=
  writeUint32 m.msg_id ++ writeInt32 m.value ++ writeString m.str ++
  m.data.serialize ++ writeSeq writeInt32 m.seq

def testInOutParamsRequest.deserialize :
    ByteReader → Option testInOutParamsRequest × ByteReader :=
  rbind readUint32 fun msg_id => rbind readInt32 fun value =>
  rbind readString fun str => rbind IntegerTypes.deserialize fun data =>
  rbind (readSeq readInt32) fun seq => rpure ⟨msg_id, value, str, data, seq⟩

def testInOutParamsRequest.valid (m : testInOutParamsRequest) : Prop :=
  m.msg_id < two32 ∧ -2147483648 ≤ m.value ∧ m.value < 2147483648 ∧
  m.str.length < two32 ∧ m.data.valid ∧ m.seq.length < two32 ∧
  ∀ x ∈ m.seq, -2147483648 ≤ x ∧ x < 2147483648

theorem readsAs_testInOutParamsRequest (m : testInOutParamsRequest)
    (hm : m.valid) :
    ReadsAs testInOutParamsRequest.deserialize m.serialize m := by
  obtain ⟨h0, h1, h2, h3, h4, h5, h6⟩ := hm
  have h : ReadsAs testInOutParamsRequest.deserialize
      (writeUint32 m.msg_id ++ (writeInt32 m.value ++ (writeString m.str ++
       (m.data.serialize ++ (writeSeq writeInt32 m.seq ++ []))))) m :=
    readsAs_bind (readsAs_readUint32 _ h0) <|
    readsAs_bind (readsAs_readInt32 _ h1 h2) <|
    readsAs_bind (readsAs_readString _ h3) <|
    readsAs_bind (readsAs_IntegerTypes _ h4) <|
    readsAs_bind (readsAs_readSeq
      (fun x hx => readsAs_readInt32 x hx.1 hx.2) _ h5 h6) <|
    readsAs_pure (⟨m.msg_id, m.value, m.str, m.data, m.seq⟩ :
      testInOutParamsRequest)
  exact readsAs_congr h
    (by simp [testInOutParamsRequest.serialize, List.append_assoc]) rfl

/-- `struct testInOutParamsResponse`. -/
structure testInOutParamsResponse where
  msg_id : Nat := MSG_TESTINOUTPARAMS_RESP
  status : Int := 0
  value : Int
  str : List Nat
  data : IntegerTypes
  seq : List Int
  deriving Repr, DecidableEq

def testInOutParamsResponse.serialize (m : testInOutParamsResponse) :
    List Nat :=
  writeUint32 m.msg_id ++ writeInt32 m.status ++ writeInt32 m.value ++
  writeString m.str ++ m.data.serialize ++ writeSeq writeInt32 m.seq

def testInOutParamsResponse.deserialize :
    ByteReader → Option testInOutParamsResponse × ByteReader :=
  rbind readUint32 fun msg_id => rbind readInt32 fun status =>
  rbind readInt32 fun value => rbind readString fun str =>
  rbind IntegerTypes.deserialize fun data =>
  rbind (readSeq readInt32) fun seq =>
  rpure ⟨msg_id, status, value, str, data, seq⟩

/-- `struct onIntegerUpdateRequest` — the push-channel payload. -/
structure onIntegerUpdateRequest where
  msg_id : Nat := MSG_ONINTEGERUPDATE_REQ
  i8 : Int
  u8 : Nat
  i32 : Int
  i64 : Int
  deriving Repr, DecidableEq

def onIntegerUpdateRequest.serialize (m : onIntegerUpdateRequest) :
    List Nat :=
  writeUint32 m.msg_id ++ writeInt8 m.i8 ++ writeUint8 m.u8 ++
  writeInt32 m.i32 ++ writeInt64 m.i64

/-! ## Stream framing — what the send paths actually put on the wire

Both send paths write `uint32_t msg_size = buffer.size();` and then
`send(fd, &msg_size, sizeof(msg_size), 0)` followed by
`send(fd, buffer.data(), buffer.size(), 0)`.  No `htonl` is applied to
`msg_size` anywhere, so the four header bytes are the raw in-memory
representation of the `uint32_t`, i.e. little-endian on the x86-64 Linux
reference platform the source targets. -/

/-- The in-memory byte layout of a `uint32_t` on the little-endian
reference platform: least significant byte first. -/
def hostOrderBytes32 (v : Nat) : List Nat :=
  [v &&& 255, (v >>> 8) &&& 255, (v >>> 16) &&& 255, (v >>> 24) &&& 255]

/-- The `uint32_t` value a receiver's raw `recv(&msg_size, 4, 0)`
reconstructs from four wire bytes on the same platform. -/
def hostValue32 (b : List Nat) : Nat :=
  b.getD 0 0 ||| (b.getD 1 0 <<< 8) ||| (b.getD 2 0 <<< 16) |||
  (b.getD 3 0 <<< 24)

/-- The framed bytes a stream send path emits for a serialized message:
raw host-order size header (the `size_t` buffer size narrowed to
`uint32_t`), then the message bytes. -/
def sentFrame (msg : List Nat) : List Nat :=
  hostOrderBytes32 (msg.length % two32) ++ msg

/-- Variant of `lor_eq_add_of_lt` with the low part on the left, as the
little-endian reconstruction produces it. -/
theorem lor_eq_add_of_lt' (k x y m : Nat) (hm : m = 2 ^ k) (hx : x < m)
    (hy : y % m = 0) : x ||| y = x + y := by
  rw [Nat.lor_comm, lor_eq_add_of_lt k y x m hm hy hx]
  omega

/-- Little-endian analogue of `be32_reconstruct`. -/
theorem le32_reconstruct (v : Nat) (hv : v < two32) :
    hostValue32 (hostOrderBytes32 v) = v := by
  have h255 : ∀ x : Nat, x &&& 255 = x % 256 := by
    intro x
    have h := Nat.and_pow_two_sub_one_eq_mod x 8
    norm_num at h
    exact h
  simp only [hostValue32, hostOrderBytes32, List.getD_cons_zero,
    List.getD_cons_succ]
  simp only [h255, Nat.shiftLeft_eq, Nat.shiftRight_eq_div_pow,
    (by norm_num : (2 : Nat) ^ 24 = 16777216),
    (by norm_num : (2 : Nat) ^ 16 = 65536),
    (by norm_num : (2 : Nat) ^ 8 = 256)]
  rw [lor_eq_add_of_lt' 8 (v % 256) (v / 256 % 256 * 256) 256 (by norm_num)
      (by omega) (by omega)]
  rw [lor_eq_add_of_lt' 16 (v % 256 + v / 256 % 256 * 256)
      (v / 65536 % 256 * 65536) 65536 (by norm_num) (by omega) (by omega)]
  rw [lor_eq_add_of_lt' 24
      (v % 256 + v / 256 % 256 * 256 + v / 65536 % 256 * 65536)
      (v / 16777216 % 256 * 16777216) 16777216 (by norm_num) (by omega)
      (by omega)]
  have hv' : v < 4294967296 := hv
  omega

/-! ## Client engine -/

/-- An entry of the client's `rpc_response_queue_`. -/
structure QueuedMessage where
  msg_id : Nat
  data : List Nat
  deriving Repr, DecidableEq

/-- `TypeTestServiceClient::isCallbackMessage` — the five push-channel
request ids (`MSG_ON*_REQ`, 1040-1044); every other id answers `false`. -/
def isCallbackMessage (msg_id : Nat) : Bool :=
  match msg_id with
  | 1040 | 1041 | 1042 | 1043 | 1044 => true
  | _ => false

/-- The listener's inline big-endian parse of the first four received
bytes (lines 1762-1765). -/
def parseMsgId (bytes : List Nat) : Nat :=
  (bytes.getD 0 0 <<< 24) ||| (bytes.getD 1 0 <<< 16) |||
  (bytes.getD 2 0 <<< 8) ||| bytes.getD 3 0

/-- What one `listenLoop` iteration does with a frame, after the 4-byte
header produced `msg_size`. -/
inductive ListenerAction where
  | teardown
  | drop
  | dispatchCallback (msg_id : Nat) (bytes : List Nat)
  | enqueue (msg_id : Nat) (bytes : List Nat)
  deriving Repr, DecidableEq

/-- The `count` argument the listener passes to `recv` for its fixed
65536-byte `recv_buffer` — the announced `msg_size`, with no upper-bound
check (line 1755). -/
def listenLoop_recvCount (msg_size : Nat) : Nat := msg_size

/-- One `listenLoop` iteration (lines 1753-1783): `recv` returns at most
`msg_size` of the `avail` bytes the transport delivers; a short or failed
read breaks the loop; a frame shorter than 4 bytes is skipped; a
push-channel id is dispatched synchronously; anything else is queued. -/
def listenLoop_step (msg_size : Nat) (avail : List Nat) : ListenerAction :=
  let recv_size := min msg_size avail.length
  let recv_buffer := avail.take msg_size
  if recv_size ≠ msg_size then .teardown
  else if msg_size < 4 then .drop
  else if isCallbackMessage (parseMsgId recv_buffer) then
    .dispatchCallback (parseMsgId recv_buffer) recv_buffer
  else .enqueue (parseMsgId recv_buffer) recv_buffer

/-- The effect of one listener iteration on `rpc_response_queue_`
(lines 1770-1783): only the `enqueue` action touches the queue, pushing
at the back. -/
def listenLoop_queueAfter (q : List QueuedMessage) (msg_size : Nat)
    (avail : List Nat) : List QueuedMessage :=
  match listenLoop_step msg_size avail with
  | .enqueue id bytes => q ++ [⟨id, bytes⟩]
  | _ => q

/-- `TypeTestServiceClient::testIntegers` (lines 1870-1939).
Environment inputs: the `connected_` flag, the two `send` results, and the
response-queue content visible to the condition-variable wait (the call
times out exactly when no entry with id `MSG_TESTINTEGERS_RESP` ever
appears).  Returns `some` of the `int32` the call returns; `none` models a
`Buffer underflow` exception escaping the call from
`response.deserialize`. -/
def testIntegers_call (connected : Bool) (sendSizeResult sendDataResult : Int)
    (queue : List QueuedMessage) (req : testIntegersRequest) : Option Int :=
  if !connected then some 0
  else if sendSizeResult < 0 then some 0
  else if sendDataResult < 0 then some 0
  else
    match queue.find? (fun m => m.msg_id == MSG_TESTINTEGERS_RESP) with
    | none => some 0
    | some qm =>
      match testIntegersResponse.deserialize ⟨qm.data, 0⟩ with
      | (some resp, _) => some resp.return_value
      | (none, _) => none

/-- The framed bytes the `testIntegers` call path sends
(lines 1886-1898): raw host-order `msg_size`, then the serialized
request. -/
def testIntegers_sentFrame (req : testIntegersRequest) : List Nat :=
  sentFrame req.serialize

/-! ## Server engine -/

/-- `TypeTestServiceServer::handle_testIntegers` (lines 3445-3468):
receive the announced `msg_size` bytes into the 65536-byte stack buffer
(no size check), deserialize, run the abstract handler, frame and send the
response.  `none` models the early `return` on a short read (and an
escaping deserialize exception); `some` carries the framed response
bytes. -/
def handle_testIntegers_model
    (handler : Int → Nat → Int → Nat → Int → Nat → Int → Nat → Int)
    (msg_size : Nat) (avail : List Nat) : Option (List Nat) :=
  let recv_size := min msg_size avail.length
  if recv_size ≠ msg_size then none
  else
    let recv_buffer := avail.take msg_size
    match testIntegersRequest.deserialize ⟨recv_buffer, 0⟩ with
    | (none, _) => none
    | (some request, _) =>
      let response : testIntegersResponse :=
        { return_value := handler request.i8 request.u8 request.i16
            request.u16 request.i32 request.u32 request.i64 request.u64 }
      some (sentFrame response.serialize)

/-- `TypeTestServiceServer::handle_testInOutParams` (lines 3920-3947):
after deserializing the request, the response's in-out fields are
initialized from the request's values, then the abstract handler mutates
them by reference; the handler is modelled as a function from the four
initialized values to the four final values. -/
def handle_testInOutParams_model
    (handler : Int → List Nat → IntegerTypes → List Int →
      Int × List Nat × IntegerTypes × List Int)
    (msg_size : Nat) (avail : List Nat) :
    Option (testInOutParamsResponse × List Nat) :=
  let recv_size := min msg_size avail.length
  if recv_size ≠ msg_size then none
  else
    let recv_buffer := avail.take msg_size
    match testInOutParamsRequest.deserialize ⟨recv_buffer, 0⟩ with
    | (none, _) => none
    | (some request, _) =>
      let out := handler request.value request.str request.data request.seq
      let response : testInOutParamsResponse :=
        { value := out.1, str := out.2.1, data := out.2.2.1,
          seq := out.2.2.2 }
      some (response, sentFrame response.serialize)

/-- `TypeTestServiceServer::broadcast` (lines 3322-3339): serialize once,
then send the same size header and bytes to every fd in `client_fds_`
except `exclude_fd`.  The result lists the `(fd, framed bytes)` sends in
iteration order. -/
def broadcast (client_fds : List Int) (exclude_fd : Int)
    (msgBytes : List Nat) : List (Int × List Nat) :=
  client_fds.filterMap fun fd =>
    if fd = exclude_fd then none else some (fd, sentFrame msgBytes)

/-- `TypeTestServiceServer::push_onIntegerUpdate` (lines 3951-3961):
build the push request, serialize, hand to `broadcast`. -/
def push_onIntegerUpdate (client_fds : List Int) (i8 : Int) (u8 : Nat)
    (i32 i64 : Int) (exclude_fd : Int) : List (Int × List Nat) :=
  broadcast client_fds exclude_fd
    (onIntegerUpdateRequest.serialize
      ⟨MSG_ONINTEGERUPDATE_REQ, i8, u8, i32, i64⟩)

theorem broadcast_cons_ex (fds : List Int) (ex : Int) (msg : List Nat) :
    broadcast (ex :: fds) ex msg = broadcast fds ex msg := by
  simp [broadcast, List.filterMap_cons]

theorem broadcast_cons_ne (f : Int) (fds : List Int) (ex : Int)
    (msg : List Nat) (h : f ≠ ex) : broadcast (f :: fds) ex msg
      = (f, sentFrame msg) :: broadcast fds ex msg := by
  simp [broadcast, List.filterMap_cons, h]

theorem broadcast_mem_iff (fds : List Int) (ex : Int) (msg : List Nat)
    (p : Int × List Nat) : p ∈ broadcast fds ex msg ↔
      p.1 ∈ fds ∧ p.1 ≠ ex ∧ p.2 = sentFrame msg := by
  simp only [broadcast, List.mem_filterMap]
  constructor
  · rintro ⟨fd, hmem, hf⟩
    by_cases h : fd = ex
    · rw [if_pos h] at hf
      exact absurd hf (by simp)
    · rw [if_neg h] at hf
      cases Option.some.inj hf
      exact ⟨hmem, h, rfl⟩
  · rintro ⟨hmem, hne, hfr⟩
    refine ⟨p.1, hmem, ?_⟩
    rw [if_neg hne, ← hfr]

theorem broadcast_countP (fds : List Int) (ex fd : Int) (msg : List Nat) :
    (broadcast fds ex msg).countP (fun p => p.1 == fd) =
      if fd = ex then 0 else fds.count fd := by
  induction fds with
  | nil => simp [broadcast]
  | cons f fds ih =>
    by_cases hfe : f = ex
    · subst hfe
      rw [broadcast_cons_ex, ih]
      by_cases hx : fd = f
      · simp [hx]
      · rw [if_neg (by omega), if_neg (by omega),
          List.count_cons_of_ne (by omega)]
    · rw [broadcast_cons_ne f fds ex msg hfe, List.countP_cons, ih]
      by_cases hx : fd = ex
      · have hne : ¬(f == fd) = true := by
          simp only [beq_iff_eq]
          omega
        simp [hx, hne, hfe]
      · rw [if_neg hx, if_neg hx, List.count_cons]
/-! ## Shared helper lemmas for the claim theorems -/

/-- `ReadsAs` specialized to a reader that holds exactly the block. -/
theorem readsAs_closed {α : Type} {rd : ByteReader → Option α × ByteReader}
    {b : List Nat} {x : α} (h : ReadsAs rd b x) :
    rd ⟨b, 0⟩ = (some x, ⟨b, b.length⟩) := by
  have h2 := h [] []
  simpa using h2

theorem readUint8_fail (r : ByteReader) (h : r.data.length < r.pos + 1) :
    readUint8 r = (none, r) := by
  simp [readUint8, canRead]
  omega

theorem readUint8_success (r : ByteReader) (h : r.pos + 1 ≤ r.data.length) :
    readUint8 r = (some (byteAt r r.pos), ⟨r.data, r.pos + 1⟩) := by
  simp [readUint8, canRead, h]

theorem readBool_fail (r : ByteReader) (h : r.data.length < r.pos + 1) :
    readBool r = (none, r) := by
  simp [readBool, canRead]
  omega

theorem readBool_success (r : ByteReader) (h : r.pos + 1 ≤ r.data.length) :
    readBool r = (some (decide (byteAt r r.pos ≠ 0)), ⟨r.data, r.pos + 1⟩) := by
  simp [readBool, canRead, h]

theorem readUint16_fail (r : ByteReader) (h : r.data.length < r.pos + 2) :
    readUint16 r = (none, r) := by
  simp [readUint16, canRead]
  omega

theorem readUint16_success (r : ByteReader) (h : r.pos + 2 ≤ r.data.length) :
    readUint16 r = (some ((byteAt r r.pos <<< 8) ||| byteAt r (r.pos+1)),
      ⟨r.data, r.pos + 2⟩) := by
  simp [readUint16, canRead, h]

theorem readUint32_fail (r : ByteReader) (h : r.data.length < r.pos + 4) :
    readUint32 r = (none, r) := by
  simp [readUint32, canRead]
  omega

theorem readUint32_success (r : ByteReader) (h : r.pos + 4 ≤ r.data.length) :
    readUint32 r = (some ((byteAt r r.pos <<< 24) |||
      (byteAt r (r.pos+1) <<< 16) ||| (byteAt r (r.pos+2) <<< 8) |||
      byteAt r (r.pos+3)), ⟨r.data, r.pos + 4⟩) := by
  simp [readUint32, canRead, h]

/-- The listener's message-id parse only looks at the first four bytes. -/
theorem parseMsgId_append (a b : List Nat) (h : 4 ≤ a.length) :
    parseMsgId (a ++ b) = parseMsgId a := by
  unfold parseMsgId
  have e : ∀ i, i < 4 → (a ++ b).getD i 0 = a.getD i 0 := by
    intro i hi
    rw [List.getD_eq_getElem?_getD, List.getD_eq_getElem?_getD,
      List.getElem?_append_left (by omega)]
  rw [e 0 (by omega), e 1 (by omega), e 2 (by omega), e 3 (by omega)]

/-- The declared `Priority` variants in declaration order. -/
def Priority.variants : List Priority :=
  [Priority.LOW, Priority.MEDIUM, Priority.HIGH, Priority.CRITICAL]

/-! ## Claim theorems -/

/-- C1: for every value `v` of an IDL-declared type — a primitive
(`int32`, `bool`, `string`), an enum (`Priority`), a record
(`IntegerTypes`, `FloatAndCharTypes`, `NestedData`), a sequence
(`sequence<int32>`), or the nested combination `ComplexData` —
deserializing the bytes produced by serializing `v` yields `v` back, and
the reader's final cursor equals the serialized byte length, i.e.
deserialization consumes exactly the bytes serialization produced. -/
theorem C1_roundtrip :
    (∀ v : Int, -2147483648 ≤ v → v < 2147483648 →
      readInt32 ⟨writeInt32 v, 0⟩
        = (some v, ⟨writeInt32 v, (writeInt32 v).length⟩)) ∧
    (∀ b : Bool, readBool ⟨writeBool b, 0⟩
        = (some b, ⟨writeBool b, (writeBool b).length⟩)) ∧
    (∀ s : List Nat, s.length < two32 → readString ⟨writeString s, 0⟩
        = (some s, ⟨writeString s, (writeString s).length⟩)) ∧
    (∀ p : Priority, p.valid → readPriority ⟨writePriority p, 0⟩
        = (some p, ⟨writePriority p, (writePriority p).length⟩)) ∧
    (∀ xs : List Int, xs.length < two32 →
      (∀ x ∈ xs, -2147483648 ≤ x ∧ x < 2147483648) →
      readSeq readInt32 ⟨writeSeq writeInt32 xs, 0⟩
        = (some xs, ⟨writeSeq writeInt32 xs,
            (writeSeq writeInt32 xs).length⟩)) ∧
    (∀ v : IntegerTypes, v.valid → IntegerTypes.deserialize ⟨v.serialize, 0⟩
        = (some v, ⟨v.serialize, v.serialize.length⟩)) ∧
    (∀ v : FloatAndCharTypes, v.valid →
      FloatAndCharTypes.deserialize ⟨v.serialize, 0⟩
        = (some v, ⟨v.serialize, v.serialize.length⟩)) ∧
    (∀ v : NestedData, v.valid → NestedData.deserialize ⟨v.serialize, 0⟩
        = (some v, ⟨v.serialize, v.serialize.length⟩)) ∧
    (∀ v : ComplexData, v.valid → ComplexData.deserialize ⟨v.serialize, 0⟩
        = (some v, ⟨v.serialize, v.serialize.length⟩)) :=
  ⟨fun v h1 h2 => readsAs_closed (readsAs_readInt32 v h1 h2),
   fun b => readsAs_closed (readsAs_readBool b),
   fun s hs => readsAs_closed (readsAs_readString s hs),
   fun p hp => readsAs_closed (readsAs_readPriority p hp),
   fun xs hl he => readsAs_closed (readsAs_readSeq
     (fun x hx => readsAs_readInt32 x hx.1 hx.2) xs hl he),
   fun v hv => readsAs_closed (readsAs_IntegerTypes v hv),
   fun v hv => readsAs_closed (readsAs_FloatAndCharTypes v hv),
   fun v hv => readsAs_closed (readsAs_NestedData v hv),
   fun v hv => readsAs_closed (readsAs_ComplexData v hv)⟩

/-- Witness for C1 at concrete inputs: an `IntegerTypes` record spanning
negative and maximal field values, and the `Priority.HIGH` enum variant. -/
theorem C1_roundtrip_witness :
    IntegerTypes.deserialize
        ⟨(⟨-1, 255, -2, 65535, 5, 6, -7, 8⟩ : IntegerTypes).serialize, 0⟩
      = (some ⟨-1, 255, -2, 65535, 5, 6, -7, 8⟩,
         ⟨(⟨-1, 255, -2, 65535, 5, 6, -7, 8⟩ : IntegerTypes).serialize,
          (⟨-1, 255, -2, 65535, 5, 6, -7, 8⟩ :
            IntegerTypes).serialize.length⟩) ∧
    readPriority ⟨writePriority Priority.HIGH, 0⟩
      = (some Priority.HIGH, ⟨writePriority Priority.HIGH,
          (writePriority Priority.HIGH).length⟩) := by
  constructor
  · exact C1_roundtrip.2.2.2.2.2.1
      (⟨-1, 255, -2, 65535, 5, 6, -7, 8⟩ : IntegerTypes)
      (by unfold IntegerTypes.valid two32; decide)
  · exact C1_roundtrip.2.2.2.1 Priority.HIGH
      (by unfold Priority.valid Priority.HIGH; decide)

/-- C2 counterexample: `Priority` declares 4 variants, yet decoding a
response carrying the out-of-range ordinal 4 succeeds (no
malformed-message failure); the unchecked `static_cast` stores ordinal 4. -/
theorem C2_counterexample :
    (testEnumResponse.deserialize
        ⟨writeUint32 MSG_TESTENUM_RESP ++ writeInt32 0 ++ writeInt32 4,
         0⟩).1 = some ⟨MSG_TESTENUM_RESP, 0, ⟨4⟩⟩ ∧
    (testEnumResponse.deserialize
        ⟨writeUint32 MSG_TESTENUM_RESP ++ writeInt32 0 ++ writeInt32 4,
         0⟩).1 ≠ none := by
  constructor
  · decide
  · decide

/-- C2 amended: enum decode performs no range check — for every signed
32-bit ordinal `n` (inside or outside `[0, 4)`), decoding succeeds and
stores exactly ordinal `n` in the enum object; an ordinal inside `[0, 4)`
yields the variant at that declaration index. -/
theorem C2_amended (n : Int) (h1 : -2147483648 ≤ n) (h2 : n < 2147483648) :
    testEnumResponse.deserialize
        ⟨writeUint32 MSG_TESTENUM_RESP ++ writeInt32 0 ++ writeInt32 n, 0⟩
      = (some ⟨MSG_TESTENUM_RESP, 0, ⟨n⟩⟩,
         ⟨writeUint32 MSG_TESTENUM_RESP ++ writeInt32 0 ++ writeInt32 n,
          12⟩) ∧
    (0 ≤ n → n < 4 →
      (⟨n⟩ : Priority) = Priority.variants.getD n.toNat ⟨0⟩) := by
  constructor
  · have h := readsAs_closed (readsAs_testEnumResponse
      ⟨MSG_TESTENUM_RESP, 0, ⟨n⟩⟩ (by norm_num [MSG_TESTENUM_RESP, two32])
      (by norm_num) (by norm_num) ⟨h1, h2⟩)
    simpa [testEnumResponse.serialize, writePriority, writeUint32,
      writeInt32, List.length_append] using h
  · intro hn1 hn2
    have : n = 0 ∨ n = 1 ∨ n = 2 ∨ n = 3 := by omega
    rcases this with rfl | rfl | rfl | rfl <;> decide

/-- Witness for C2's amended theorem at the out-of-range ordinal 7. -/
theorem C2_amended_witness :
    testEnumResponse.deserialize
        ⟨writeUint32 MSG_TESTENUM_RESP ++ writeInt32 0 ++ writeInt32 7, 0⟩
      = (some ⟨MSG_TESTENUM_RESP, 0, ⟨7⟩⟩,
         ⟨writeUint32 MSG_TESTENUM_RESP ++ writeInt32 0 ++ writeInt32 7,
          12⟩) :=
  (C2_amended 7 (by decide) (by decide)).1

/-- C8: encoding `int32 0x01020304` appends exactly the bytes
`[0x01, 0x02, 0x03, 0x04]`; encoding `true` appends exactly `[0x01]`;
encoding the empty string appends exactly `[0x00, 0x00, 0x00, 0x00]`. -/
theorem C8_literal_encodings :
    writeInt32 16909060 = [1, 2, 3, 4] ∧ writeBool true = [1] ∧
    writeString [] = [0, 0, 0, 0] := by
  refine ⟨by decide, by decide, by decide⟩

/-- C3 counterexample: the frame the `testIntegers` call path sends does
not begin with the big-endian encoding of the message byte length — the
raw `send(&msg_size, 4, 0)` emits the host's little-endian layout
(`[34, 0, 0, 0]`, not `[0, 0, 0, 34]`). -/
theorem C3_counterexample :
    (testIntegers_sentFrame
        ⟨MSG_TESTINTEGERS_REQ, 1, 2, 3, 4, 5, 6, 7, 8⟩).take 4
      ≠ writeUint32 ((testIntegers_sentFrame
        ⟨MSG_TESTINTEGERS_REQ, 1, 2, 3, 4, 5, 6, 7, 8⟩).drop 4).length := by
  decide

/-- C3 amended: on the stream binding, every frame sent by the client call
path and by the server response path is a 32-bit unsigned length in host
(little-endian) byte order — not big-endian — followed by exactly that
many message bytes, and the length value equals the byte length of the
serialized message. -/
theorem C3_amended (req : testIntegersRequest) (resp : testIntegersResponse) :
    (testIntegers_sentFrame req).take 4
      = hostOrderBytes32 req.serialize.length ∧
    (testIntegers_sentFrame req).drop 4 = req.serialize ∧
    hostValue32 ((testIntegers_sentFrame req).take 4)
      = req.serialize.length ∧
    (testIntegers_sentFrame req).length = 4 + req.serialize.length ∧
    (sentFrame resp.serialize).take 4
      = hostOrderBytes32 resp.serialize.length ∧
    (sentFrame resp.serialize).drop 4 = resp.serialize ∧
    hostValue32 ((sentFrame resp.serialize).take 4)
      = resp.serialize.length := by
  have hreq : req.serialize.length = 34 := by
    simp [testIntegersRequest.serialize, writeUint32, writeInt8, writeUint8,
      writeInt16, writeUint16, writeInt32, writeInt64, writeUint64,
      List.length_append]
  have hresp : resp.serialize.length = 12 := by
    simp [testIntegersResponse.serialize, writeUint32, writeInt32,
      List.length_append]
  have hmod1 : req.serialize.length % two32 = req.serialize.length := by
    rw [hreq]
    norm_num [two32]
  have hmod2 : resp.serialize.length % two32 = resp.serialize.length := by
    rw [hresp]
    norm_num [two32]
  have hhostlen : ∀ v : Nat, (hostOrderBytes32 v).length = 4 := by
    intro v
    simp [hostOrderBytes32]
  refine ⟨?_, ?_, ?_, ?_, ?_, ?_, ?_⟩
  · rw [testIntegers_sentFrame, sentFrame, hmod1,
      List.take_left' (hhostlen _)]
  · rw [testIntegers_sentFrame, sentFrame, hmod1,
      List.drop_left' (hhostlen _)]
  · rw [testIntegers_sentFrame, sentFrame, hmod1,
      List.take_left' (hhostlen _), le32_reconstruct _ (by rw [hreq]; norm_num [two32])]
  · rw [testIntegers_sentFrame, sentFrame, List.length_append, hhostlen]
  · rw [sentFrame, hmod2, List.take_left' (hhostlen _)]
  · rw [sentFrame, hmod2, List.drop_left' (hhostlen _)]
  · rw [sentFrame, hmod2, List.take_left' (hhostlen _),
      le32_reconstruct _ (by rw [hresp]; norm_num [two32])]

/-- A 65537-byte message body: a well-formed `testIntegers` request padded
with zeros, one byte larger than the 65536-byte receive buffers. -/
def oversizedFrameBody : List Nat :=
  testIntegersRequest.serialize ⟨MSG_TESTINTEGERS_REQ, 0, 0, 0, 0, 0, 0, 0, 0⟩
    ++ List.replicate 65503 0

/-- C4 (code bug): a frame announcing 65537 bytes is not rejected.  The
client listener hands the unchecked `msg_size` straight to `recv` as the
count for its 65536-byte stack buffer and then processes the frame
(it ends up queued, not dropped), and the server-side
`handle_testIntegers` likewise receives and answers it — no path produces
a malformed-message rejection. -/
theorem C4_oversized_frame_processed :
    oversizedFrameBody.length = 65537 ∧
    65536 < listenLoop_recvCount oversizedFrameBody.length ∧
    listenLoop_step oversizedFrameBody.length oversizedFrameBody
      ≠ ListenerAction.teardown ∧
    listenLoop_step oversizedFrameBody.length oversizedFrameBody
      ≠ ListenerAction.drop ∧
    (handle_testIntegers_model (fun _ _ _ _ _ _ _ _ => 0)
      oversizedFrameBody.length oversizedFrameBody).isSome = true := by
  have hser : (testIntegersRequest.serialize
      ⟨MSG_TESTINTEGERS_REQ, 0, 0, 0, 0, 0, 0, 0, 0⟩).length = 34 := by
    decide
  have hlen : oversizedFrameBody.length = 65537 := by
    rw [oversizedFrameBody, List.length_append, hser, List.length_replicate]
  have hid : parseMsgId oversizedFrameBody = 1000 := by
    rw [oversizedFrameBody, parseMsgId_append _ _ (by rw [hser]; omega)]
    decide
  have hstep : listenLoop_step oversizedFrameBody.length oversizedFrameBody
      = ListenerAction.enqueue 1000 oversizedFrameBody := by
    unfold listenLoop_step
    simp only [Nat.min_self, ne_eq, not_true_eq_false, if_false,
      List.take_length, hid]
    rw [if_neg (by rw [hlen]; omega), if_neg (by decide)]
  have hdes : testIntegersRequest.deserialize ⟨oversizedFrameBody, 0⟩
      = (some ⟨MSG_TESTINTEGERS_REQ, 0, 0, 0, 0, 0, 0, 0, 0⟩,
         ⟨oversizedFrameBody, 34⟩) := by
    have h := readsAs_testIntegersRequest
      ⟨MSG_TESTINTEGERS_REQ, 0, 0, 0, 0, 0, 0, 0, 0⟩
      (by unfold testIntegersRequest.valid MSG_TESTINTEGERS_REQ two32; decide)
      [] (List.replicate 65503 0)
    simpa only [List.nil_append, List.length_nil, Nat.zero_add, hser,
      oversizedFrameBody] using h
  refine ⟨hlen, by rw [hlen]; decide, by rw [hstep]; decide,
    by rw [hstep]; decide, ?_⟩
  show (handle_testIntegers_model (fun _ _ _ _ _ _ _ _ => 0)
    oversizedFrameBody.length oversizedFrameBody).isSome = true
  unfold handle_testIntegers_model
  rw [Nat.min_self, if_neg (by simp), List.take_length]
  simp only [hdes]
  rfl

/-- C5: for every reader state and every primitive or string read: a read
that would consume bytes past the end of the slice fails (`none`, the
malformed-message throw); a successful read advances the cursor by exactly
the consumed byte count; a failed read leaves the cursor at the point of
failure — unchanged for a one-piece read, just past the first `uint32`
for the second half of a 64-bit read, and just past the consumed 4-byte
length for a string whose declared length exceeds the remaining bytes. -/
theorem C5_reader_cursor (r : ByteReader) :
    (r.data.length < r.pos + 1 → readUint8 r = (none, r)) ∧
    (r.pos + 1 ≤ r.data.length →
      (readUint8 r).1 ≠ none ∧ (readUint8 r).2 = ⟨r.data, r.pos + 1⟩) ∧
    (r.data.length < r.pos + 1 → readBool r = (none, r)) ∧
    (r.pos + 1 ≤ r.data.length →
      (readBool r).1 ≠ none ∧ (readBool r).2 = ⟨r.data, r.pos + 1⟩) ∧
    (r.data.length < r.pos + 2 → readUint16 r = (none, r)) ∧
    (r.pos + 2 ≤ r.data.length →
      (readUint16 r).1 ≠ none ∧ (readUint16 r).2 = ⟨r.data, r.pos + 2⟩) ∧
    (r.data.length < r.pos + 4 → readUint32 r = (none, r)) ∧
    (r.pos + 4 ≤ r.data.length →
      (readUint32 r).1 ≠ none ∧ (readUint32 r).2 = ⟨r.data, r.pos + 4⟩) ∧
    (r.data.length < r.pos + 4 → readUint64 r = (none, r)) ∧
    (r.pos + 4 ≤ r.data.length → r.data.length < r.pos + 8 →
      readUint64 r = (none, ⟨r.data, r.pos + 4⟩)) ∧
    (r.pos + 8 ≤ r.data.length →
      (readUint64 r).1 ≠ none ∧ (readUint64 r).2 = ⟨r.data, r.pos + 8⟩) ∧
    (r.data.length < r.pos + 4 → readString r = (none, r)) ∧
    (∀ len, (readUint32 r).1 = some len →
      (r.data.length < r.pos + 4 + len →
        readString r = (none, ⟨r.data, r.pos + 4⟩)) ∧
      (r.pos + 4 + len ≤ r.data.length →
        readString r = (some ((r.data.drop (r.pos + 4)).take len),
          ⟨r.data, r.pos + 4 + len⟩))) := by
  refine ⟨readUint8_fail r, ?_, readBool_fail r, ?_, readUint16_fail r, ?_,
    readUint32_fail r, ?_, ?_, ?_, ?_, ?_, ?_⟩
  · intro h
    rw [readUint8_success r h]
    exact ⟨by simp, rfl⟩
  · intro h
    rw [readBool_success r h]
    exact ⟨by simp, rfl⟩
  · intro h
    rw [readUint16_success r h]
    exact ⟨by simp, rfl⟩
  · intro h
    rw [readUint32_success r h]
    exact ⟨by simp, rfl⟩
  · intro h
    unfold readUint64
    rw [readUint32_fail r h]
  · intro h1 h2
    unfold readUint64
    rw [readUint32_success r h1]
    simp only []
    rw [readUint32_fail ⟨r.data, r.pos + 4⟩ (by simpa using h2)]
  · intro h
    unfold readUint64
    rw [readUint32_success r (by omega)]
    simp only []
    rw [readUint32_success ⟨r.data, r.pos + 4⟩ (by simpa using h)]
    exact ⟨by simp, by simp [Nat.add_assoc]⟩
  · intro h
    unfold readString
    rw [readUint32_fail r h]
  · intro len hlen
    have hsucc : r.pos + 4 ≤ r.data.length := by
      by_contra hc
      rw [readUint32_fail r (by omega)] at hlen
      exact Option.noConfusion hlen
    obtain ⟨u, hu⟩ : ∃ u, readUint32 r = (some u, ⟨r.data, r.pos + 4⟩) :=
      ⟨_, readUint32_success r hsucc⟩
    have hul : u = len := by
      rw [hu] at hlen
      exact Option.some.inj hlen
    subst hul
    constructor
    · intro hbig
      unfold readString
      rw [hu]
      simp only []
      rw [if_neg (by simp [canRead]; omega)]
    · intro hfit
      unfold readString
      rw [hu]
      simp only []
      rw [if_pos (by simp [canRead]; omega)]

/-- Witness for C5: a string whose declared length 9 exceeds the single
remaining byte fails with the cursor just past the 4-byte length, and a
one-byte read on an empty slice fails with the cursor unchanged. -/
theorem C5_reader_cursor_witness :
    readString ⟨[0, 0, 0, 9, 1], 0⟩ = (none, ⟨[0, 0, 0, 9, 1], 4⟩) ∧
    readUint8 ⟨[], 0⟩ = (none, ⟨[], 0⟩) := by
  constructor
  · exact ((C5_reader_cursor
      ⟨[0, 0, 0, 9, 1], 0⟩).2.2.2.2.2.2.2.2.2.2.2.2 9 (by decide)).1
      (by decide)
  · exact (C5_reader_cursor ⟨[], 0⟩).1 (by decide)

/-- C6 counterexample: a frame whose message id 999 is neither a declared
push-channel request id (1040-1044) nor any RPC response id is not
dropped — the listener retains it in the response-correlation queue. -/
theorem C6_counterexample :
    listenLoop_queueAfter [] 8 (writeUint32 999 ++ writeUint32 0)
      = [⟨999, writeUint32 999 ++ writeUint32 0⟩] := by
  decide

/-- C6 amended: the listener routes by `isCallbackMessage` only — every
fully received frame of at least 4 bytes whose id is not a push-channel id
is appended to the response-correlation queue (known RPC response id or
not); only frames shorter than 4 bytes are dropped. -/
theorem C6_amended (q : List QueuedMessage) (msg_size : Nat)
    (avail : List Nat) (h1 : msg_size = avail.length) (h2 : 4 ≤ msg_size)
    (h3 : isCallbackMessage (parseMsgId avail) = false) :
    listenLoop_queueAfter q msg_size avail
      = q ++ [⟨parseMsgId avail, avail⟩] := by
  subst h1
  unfold listenLoop_queueAfter listenLoop_step
  rw [Nat.min_self, List.take_length]
  rw [if_neg (by simp), if_neg (by omega), if_neg (by simp [h3])]

/-- Witness for C6's amended theorem: a 12-byte frame with the unknown
id 2000 lands in the queue. -/
theorem C6_amended_witness :
    listenLoop_queueAfter [] 12
        (writeUint32 2000 ++ writeUint32 0 ++ writeUint32 0)
      = [] ++ [⟨parseMsgId (writeUint32 2000 ++ writeUint32 0 ++
          writeUint32 0), writeUint32 2000 ++ writeUint32 0 ++
          writeUint32 0⟩] :=
  C6_amended [] 12 (writeUint32 2000 ++ writeUint32 0 ++ writeUint32 0)
    (by decide) (by decide) (by decide)

/-- C7: the typed `testIntegers` call returns the zero default of its
`int32` return type whenever the client is not connected, either send
fails, or no frame with the method's response id (1001) ever reaches the
response queue within the bounded wait. -/
theorem C7_default_on_failure (connected : Bool)
    (sendSizeResult sendDataResult : Int) (queue : List QueuedMessage)
    (req : testIntegersRequest)
    (h : connected = false ∨ sendSizeResult < 0 ∨ sendDataResult < 0 ∨
      queue.find? (fun m => m.msg_id == MSG_TESTINTEGERS_RESP) = none) :
    testIntegers_call connected sendSizeResult sendDataResult queue req
      = some 0 := by
  unfold testIntegers_call
  rcases h with h | h | h | h
  · simp [h]
  · cases connected <;> simp [h]
  · cases connected <;> by_cases hs : sendSizeResult < 0 <;> simp [h, hs]
  · cases connected <;> by_cases hs : sendSizeResult < 0 <;>
      by_cases hd : sendDataResult < 0 <;> simp [h, hs, hd]

/-- Witness for C7: a disconnected call and a timed-out call both
return 0. -/
theorem C7_default_on_failure_witness :
    testIntegers_call false 1 1 [] ⟨MSG_TESTINTEGERS_REQ, 1, 2, 3, 4, 5, 6, 7, 8⟩
      = some 0 ∧
    testIntegers_call true 1 1 [⟨999, [0]⟩]
        ⟨MSG_TESTINTEGERS_REQ, 1, 2, 3, 4, 5, 6, 7, 8⟩ = some 0 := by
  constructor
  · exact C7_default_on_failure false 1 1 []
      ⟨MSG_TESTINTEGERS_REQ, 1, 2, 3, 4, 5, 6, 7, 8⟩ (Or.inl rfl)
  · exact C7_default_on_failure true 1 1 [⟨999, [0]⟩]
      ⟨MSG_TESTINTEGERS_REQ, 1, 2, 3, 4, 5, 6, 7, 8⟩
      (Or.inr (Or.inr (Or.inr (by decide))))

/-- C9: `push_onIntegerUpdate` serializes the push message once and hands
it to `broadcast`: every send carries the identical framed bytes and goes
to a tracked, non-excluded handle; each handle receives as many sends as
its multiplicity in the tracked list (one, for distinct fds) and the
excluded handle receives none. -/
theorem C9_broadcast_fanout (client_fds : List Int) (exclude_fd : Int)
    (i8 : Int) (u8 : Nat) (i32 i64 : Int) :
    (∀ p ∈ push_onIntegerUpdate client_fds i8 u8 i32 i64 exclude_fd,
      p.1 ∈ client_fds ∧ p.1 ≠ exclude_fd ∧
      p.2 = sentFrame (onIntegerUpdateRequest.serialize
        ⟨MSG_ONINTEGERUPDATE_REQ, i8, u8, i32, i64⟩)) ∧
    (∀ fd ∈ client_fds, fd ≠ exclude_fd →
      (fd, sentFrame (onIntegerUpdateRequest.serialize
        ⟨MSG_ONINTEGERUPDATE_REQ, i8, u8, i32, i64⟩))
        ∈ push_onIntegerUpdate client_fds i8 u8 i32 i64 exclude_fd) ∧
    (∀ fd : Int,
      (push_onIntegerUpdate client_fds i8 u8 i32 i64 exclude_fd).countP
          (fun p => p.1 == fd)
        = if fd = exclude_fd then 0 else client_fds.count fd) := by
  refine ⟨?_, ?_, ?_⟩
  · intro p hp
    exact (broadcast_mem_iff client_fds exclude_fd _ p).mp hp
  · intro fd hmem hne
    exact (broadcast_mem_iff client_fds exclude_fd _ _).mpr ⟨hmem, hne, rfl⟩
  · intro fd
    exact broadcast_countP client_fds exclude_fd fd _

/-- Witness for C9 with tracked fds `[5, 6]` and excluded fd `6`. -/
theorem C9_broadcast_fanout_witness :
    ((5 : Int), sentFrame (onIntegerUpdateRequest.serialize
        ⟨MSG_ONINTEGERUPDATE_REQ, 1, 2, 3, 4⟩))
      ∈ push_onIntegerUpdate [5, 6] 1 2 3 4 6 ∧
    (push_onIntegerUpdate [5, 6] 1 2 3 4 6).countP
      (fun p => p.1 == (6 : Int)) = 0 := by
  constructor
  · exact (C9_broadcast_fanout [5, 6] 6 1 2 3 4).2.1 5 (by decide) (by decide)
  · have h := (C9_broadcast_fanout [5, 6] 6 1 2 3 4).2.2 6
    simpa using h

/-- C10: for every `testInOutParams` request the stream server processes,
the response's in-out fields (`value`, `str`, `data`, `seq`) are
initialized from the request's received values before the handler runs;
the response carries exactly the handler's final values, so any field the
handler leaves unmodified is echoed back exactly as received. -/
theorem C10_inout_echo
    (handler : Int → List Nat → IntegerTypes → List Int →
      Int × List Nat × IntegerTypes × List Int)
    (m : testInOutParamsRequest) (hm : m.valid) :
    handle_testInOutParams_model handler m.serialize.length m.serialize
      = some (⟨MSG_TESTINOUTPARAMS_RESP, 0,
          (handler m.value m.str m.data m.seq).1,
          (handler m.value m.str m.data m.seq).2.1,
          (handler m.value m.str m.data m.seq).2.2.1,
          (handler m.value m.str m.data m.seq).2.2.2⟩,
        sentFrame (testInOutParamsResponse.serialize
          ⟨MSG_TESTINOUTPARAMS_RESP, 0,
           (handler m.value m.str m.data m.seq).1,
           (handler m.value m.str m.data m.seq).2.1,
           (handler m.value m.str m.data m.seq).2.2.1,
           (handler m.value m.str m.data m.seq).2.2.2⟩)) ∧
    (∀ resp frame,
      handle_testInOutParams_model handler m.serialize.length m.serialize
        = some (resp, frame) →
      ((handler m.value m.str m.data m.seq).1 = m.value →
        resp.value = m.value) ∧
      ((handler m.value m.str m.data m.seq).2.1 = m.str →
        resp.str = m.str) ∧
      ((handler m.value m.str m.data m.seq).2.2.1 = m.data →
        resp.data = m.data) ∧
      ((handler m.value m.str m.data m.seq).2.2.2 = m.seq →
        resp.seq = m.seq)) := by
  have hdes : testInOutParamsRequest.deserialize ⟨m.serialize, 0⟩
      = (some m, ⟨m.serialize, m.serialize.length⟩) :=
    readsAs_closed (readsAs_testInOutParamsRequest m hm)
  have hmain : handle_testInOutParams_model handler m.serialize.length
      m.serialize = some (⟨MSG_TESTINOUTPARAMS_RESP, 0,
        (handler m.value m.str m.data m.seq).1,
        (handler m.value m.str m.data m.seq).2.1,
        (handler m.value m.str m.data m.seq).2.2.1,
        (handler m.value m.str m.data m.seq).2.2.2⟩,
      sentFrame (testInOutParamsResponse.serialize
        ⟨MSG_TESTINOUTPARAMS_RESP, 0,
         (handler m.value m.str m.data m.seq).1,
         (handler m.value m.str m.data m.seq).2.1,
         (handler m.value m.str m.data m.seq).2.2.1,
         (handler m.value m.str m.data m.seq).2.2.2⟩)) := by
    unfold handle_testInOutParams_model
    rw [Nat.min_self, if_neg (by simp), List.take_length]
    simp only [hdes]
  refine ⟨hmain, ?_⟩
  intro resp frame heq
  rw [hmain] at heq
  obtain ⟨h1, h2⟩ := Prod.mk.injEq .. ▸ Option.some.inj heq
  subst h1
  exact ⟨fun h => by simp [h], fun h => by simp [h],
    fun h => by simp [h], fun h => by simp [h]⟩

/-- Witness for C10: the identity handler echoes all four in-out fields of
a concrete request back into the response. -/
theorem C10_inout_echo_witness :
    handle_testInOutParams_model (fun v s d q => (v, s, d, q))
        ((⟨MSG_TESTINOUTPARAMS_REQ, 5, [104], ⟨0, 0, 0, 0, 0, 0, 0, 0⟩,
          [1]⟩ : testInOutParamsRequest).serialize.length)
        (⟨MSG_TESTINOUTPARAMS_REQ, 5, [104], ⟨0, 0, 0, 0, 0, 0, 0, 0⟩,
          [1]⟩ : testInOutParamsRequest).serialize
      = some (⟨MSG_TESTINOUTPARAMS_RESP, 0, 5, [104],
          ⟨0, 0, 0, 0, 0, 0, 0, 0⟩, [1]⟩,
        sentFrame (testInOutParamsResponse.serialize
          ⟨MSG_TESTINOUTPARAMS_RESP, 0, 5, [104],
           ⟨0, 0, 0, 0, 0, 0, 0, 0⟩, [1]⟩)) :=
  (C10_inout_echo (fun v s d q => (v, s, d, q))
    ⟨MSG_TESTINOUTPARAMS_REQ, 5, [104], ⟨0, 0, 0, 0, 0, 0, 0, 0⟩, [1]⟩
    (by unfold testInOutParamsRequest.valid IntegerTypes.valid
          MSG_TESTINOUTPARAMS_REQ two32
        decide)).1

end ipc
